import Mathlib

/-!
Verification development for the omarchy-screensaver-christmas effect plugins
(`effect_snow.py`, `effect_moresnow.py`, `effect_christmas.py`).

The development shallowly embeds the particle-accumulation simulation shared by
the three effects: the sway fall-path generator, the bottom-pile stacking and
capping logic, and the per-tick state machines of the three iterators.

Modelling conventions:
* Python machine integers are modelled as `Int`/`Nat` (no overflow is possible
  in the source's ranges).
* All calls to `random.*` are injected as oracle inputs (structures of type
  `*Rand`); theorems that depend on the documented ranges of `random.randint`
  take those ranges as hypotheses.
* The engine collaborator (terminaltexteffects: motion interpolation along an
  activated path, pruning of settled characters from the active set) is the
  per-tick oracle field `engine` / `keepActive`; it is applied where the source
  calls `self.update()` and by construction cannot touch the pile map,
  the pending queues or particle ownership lists, exactly as in the source.
* `i / num_sways` followed by `int (...)` in the sway loops is evaluated in
  Python over binary floating point; with `num_sways ∈ {2, 3, 4}` and terminal
  sized distances the value coincides with exact rational arithmetic, so it is
  embedded as integer division truncating toward zero (`Int.tdiv`).
-/

/-- A 2D terminal coordinate (`terminaltexteffects.Coord`): column then row. -/
structure Coord where
  column : Int
  row : Int
deriving DecidableEq, Repr

/-- The state of one effect character that the simulation core observes:
its engine id, its current coordinate (`motion.current_coord`), whether a
motion path is currently active (`motion.active_path` truthiness), and its
visibility flag. -/
structure Particle where
  id : Nat
  column : Int
  row : Int
  pathActive : Bool
  visible : Bool
deriving DecidableEq, Repr

/-- Canvas bounds (`self.terminal.canvas`). -/
structure Canvas where
  left : Int
  right : Int
  top : Int
  bottom : Int
deriving DecidableEq, Repr

/-- `max(self.terminal.canvas.left, min(self.terminal.canvas.right, c))`:
clamping of a column to the horizontal canvas bounds. -/
def clampCol (left right c : Int) : Int :=
  max left (min right c)

/-- `sway_direction = 1 if i % 2 == 0 else -1` in the sway loops. -/
def swaySign (i : Nat) : Int :=
  if i % 2 = 0 then 1 else -1

/-- The running `current_column` accumulator of the sway loops: it starts at
the spawn column and adds `sway_direction * sway_amount` once per loop
iteration, without any clamping (only the emitted waypoint is clamped). -/
def swayColumnAcc (startCol : Int) (amount : Nat → Nat) : Nat → Int
  | 0 => startCol
  | i + 1 => swayColumnAcc startCol amount i + swaySign (i + 1) * (amount (i + 1) : Int)

/-- The waypoint emitted by iteration `i` of the sway loops:
`Coord(sway_column, sway_row)` with
`sway_row = top - int(fall_distance * (i / num_sways))` and
`sway_column = clamp(current_column)`. -/
def swayWaypoint (top left right : Int) (fallDistance : Int) (numSways : Nat)
    (amount : Nat → Nat) (startCol : Int) (i : Nat) : Coord :=
  ⟨clampCol left right (swayColumnAcc startCol amount i),
   top - Int.tdiv (fallDistance * (i : Int)) (numSways : Int)⟩

/-- The list of intermediate sway waypoints produced by
`for i in range(1, num_sways)` in all three sway loops (the loops are
verbatim identical in the three source files). -/
def swayWaypoints (top left right : Int) (fallDistance : Int) (numSways : Nat)
    (amount : Nat → Nat) (startCol : Int) : List Coord :=
  (List.range' 1 (numSways - 1)).map (swayWaypoint top left right fallDistance numSways amount startCol)

/-- The fall path built for a text-forming character
(`SnowIterator.build` / `MoreSnowIterator.build`): sway waypoints computed
from `fall_distance = canvas.top - input_coord.row` starting at the input
column, followed by the final waypoint exactly at `character.input_coord`. -/
def buildFallPath (top left right : Int) (targetCol targetRow : Int)
    (numSways : Nat) (amount : Nat → Nat) : List Coord :=
  swayWaypoints top left right (top - targetRow) numSways amount targetCol
    ++ [⟨targetCol, targetRow⟩]

/-- The fall path built for a background snowflake
(`MoreSnowIterator.spawn_background_snowflake` /
`ChristmasIterator.spawn_background_snowflake`): sway waypoints computed from
`fall_distance = canvas.top - canvas.bottom` starting at the random spawn
column, followed by the final waypoint
`Coord(final_column, canvas.bottom)` with
`final_column = clamp(current_column)`. -/
def bgFallPath (top bottom left right : Int) (snowCol : Int)
    (numSways : Nat) (amount : Nat → Nat) : List Coord :=
  swayWaypoints top left right (top - bottom) numSways amount snowCol
    ++ [⟨clampCol left right (swayColumnAcc snowCol amount (numSways - 1)), bottom⟩]

/-- One landed-particle step of `MoreSnowIterator.check_background_snow_landing`
(the loop body for a single `snow`): returns the particle as retained in
`background_snow` (`some`/`none`), the updated pile map, and the list of
removed (made invisible) particles. Particles with an active path are left
untouched. The pile map is total with default height `0`, matching the
`if landing_column not in self.bottom_pile_height` initialisation. -/
def msLandOne (bottom : Int) (pile : Int → Nat) (snow : Particle) :
    Option Particle × (Int → Nat) × List Particle :=
  if snow.pathActive then (some snow, pile, [])
  else
    let h := pile snow.column
    if h < 5 then
      (some { snow with row := bottom + (h : Int) },
       fun c => if c = snow.column then h + 1 else pile c, [])
    else
      (none, pile, [{ snow with visible := false }])

/-- `MoreSnowIterator.check_background_snow_landing`: fold `msLandOne` over a
snapshot of `background_snow`, threading the pile map; returns the new
`background_snow` list, the new pile map and the removed particles. -/
def msLandingPass (bottom : Int) : List Particle → (Int → Nat) →
    List Particle × (Int → Nat) × List Particle
  | [], pile => ([], pile, [])
  | snow :: rest, pile =>
    let one := msLandOne bottom pile snow
    let restRes := msLandingPass bottom rest one.2.1
    (one.1.toList ++ restRes.1, restRes.2.1, one.2.2 ++ restRes.2.2)

/-- One landed-particle step of
`ChristmasIterator.check_background_snow_landing`: identical to the MoreSnow
variant except that (a) when `spawn_stopped` holds, a landed particle is
removed unconditionally without touching the pile, and (b) stacking goes
upward (`canvas.bottom - height`). -/
def xmasLandOne (spawnStopped : Bool) (bottom : Int) (pile : Int → Nat) (snow : Particle) :
    Option Particle × (Int → Nat) × List Particle :=
  if snow.pathActive then (some snow, pile, [])
  else if spawnStopped then (none, pile, [{ snow with visible := false }])
  else
    let h := pile snow.column
    if h < 5 then
      (some { snow with row := bottom - (h : Int) },
       fun c => if c = snow.column then h + 1 else pile c, [])
    else
      (none, pile, [{ snow with visible := false }])

/-- `ChristmasIterator.check_background_snow_landing`: fold `xmasLandOne` over
a snapshot of `background_snow`. -/
def xmasLandingPass (spawnStopped : Bool) (bottom : Int) : List Particle → (Int → Nat) →
    List Particle × (Int → Nat) × List Particle
  | [], pile => ([], pile, [])
  | snow :: rest, pile =>
    let one := xmasLandOne spawnStopped bottom pile snow
    let restRes := xmasLandingPass spawnStopped bottom rest one.2.1
    (one.1.toList ++ restRes.1, restRes.2.1, one.2.2 ++ restRes.2.2)

/-- Number of successful stacks registered at column `c` during a MoreSnow
landing pass (a successful stack is a landed particle processed while its
column's height is below the cap). -/
def msStackedCount (bottom : Int) : List Particle → (Int → Nat) → Int → Nat
  | [], _, _ => 0
  | snow :: rest, pile, c =>
    if snow.pathActive then msStackedCount bottom rest pile c
    else
      let h := pile snow.column
      if h < 5 then
        (if snow.column = c then 1 else 0) +
          msStackedCount bottom rest (fun d => if d = snow.column then h + 1 else pile d) c
      else msStackedCount bottom rest pile c

/-- Number of successful stacks registered at column `c` during a Christmas
landing pass. -/
def xmasStackedCount (spawnStopped : Bool) (bottom : Int) :
    List Particle → (Int → Nat) → Int → Nat
  | [], _, _ => 0
  | snow :: rest, pile, c =>
    if snow.pathActive then xmasStackedCount spawnStopped bottom rest pile c
    else if spawnStopped then xmasStackedCount spawnStopped bottom rest pile c
    else
      let h := pile snow.column
      if h < 5 then
        (if snow.column = c then 1 else 0) +
          xmasStackedCount spawnStopped bottom rest (fun d => if d = snow.column then h + 1 else pile d) c
      else xmasStackedCount spawnStopped bottom rest pile c

/-- The snow symbol chosen for a text-forming character in
`MoreSnowIterator.build`: `random.choice` over the configured symbols with
`"."` filtered out, falling back to the unfiltered list when the filtered
list is empty. The oracle indices `i`, `j` stand for the two possible
`random.choice` draws. -/
def textSnowSymbol (snowSymbols : List String) (i j : Nat) : String :=
  let textSnowSymbols := snowSymbols.filter (fun s => s ≠ ".")
  if textSnowSymbols.isEmpty then snowSymbols.getD (j % snowSymbols.length) "."
  else textSnowSymbols.getD (i % textSnowSymbols.length) "."

/-- The snow symbol chosen for a background snowflake
(`spawn_background_snowflake` in both MoreSnow and Christmas):
`random.choice` over the full configured symbol list. -/
def bgSnowSymbol (snowSymbols : List String) (k : Nat) : String :=
  snowSymbols.getD (k % snowSymbols.length) "."

/-- Mutable state of `MoreSnowIterator` observed by the simulation core.
`visibleText` records which text-forming characters have been made visible;
background-particle visibility lives inside each `Particle`. -/
@[ext]

structure MSState where
  pendingChars : List Nat
  backgroundSnow : List Particle
  pile : Int → Nat
  textSpawnDelay : Int
  backgroundSpawnDelay : Int
  visibleText : Finset Nat
  active : Finset Nat
  nextId : Nat

/-- Oracle inputs consumed by one `MoreSnowIterator.__next__` call:
the `random.randint(3, 6)` batch size, the `random.randint(left, right)`
column of each spawned flake, the `random.randint(0, len - 1)` drain index,
whether the 10-second wall clock has elapsed, and the engine collaborator's
`update()` effect (motion along active paths, active-set pruning). -/
structure MSRand where
  spawnCount : Nat
  spawnCol : Nat → Int
  drainIdx : Nat
  timeUp : Bool
  engine : Particle → Particle
  keepActive : Nat → Bool

/-- `MoreSnowIterator.spawn_background_snowflake` as it affects iterator
state: a fresh particle at the canvas top with an activated (hence active)
fall path, made visible, added to the active set and appended to
`background_snow`. -/
def msSpawnOne (top : Int) (col : Int) (s : MSState) : MSState :=
  { s with
    backgroundSnow := s.backgroundSnow ++ [⟨s.nextId, col, top, true, true⟩],
    active := insert s.nextId s.active,
    nextId := s.nextId + 1 }

/-- The background-spawn block of `MoreSnowIterator.__next__`: when the delay
timer has run out, unconditionally spawn a batch of `randint(3, 6)` flakes and
reset the timer to 2; otherwise decrement the timer. -/
def msSpawnStep (cv : Canvas) (r : MSRand) (s : MSState) : MSState :=
  if s.backgroundSpawnDelay ≤ 0 then
    { (List.range r.spawnCount).foldl (fun t k => msSpawnOne cv.top (r.spawnCol k) t) s
      with backgroundSpawnDelay := 2 }
  else
    { s with backgroundSpawnDelay := s.backgroundSpawnDelay - 1 }

/-- The landing block of `MoreSnowIterator.__next__`: run the landing pass
over `background_snow`, updating the list and the pile map. -/
def msLandingStep (cv : Canvas) (s : MSState) : MSState :=
  let res := msLandingPass cv.bottom s.backgroundSnow s.pile
  { s with backgroundSnow := res.1, pile := res.2.1 }

/-- The text-drain block of `MoreSnowIterator.__next__`: when pending
characters remain and the text delay has run out, pop one at a random index,
make it visible and active, and reset the delay to 1; otherwise decrement
the delay. -/
def msDrainStep (r : MSRand) (s : MSState) : MSState :=
  if s.pendingChars = [] then s
  else if s.textSpawnDelay ≤ 0 then
    let j := r.drainIdx % s.pendingChars.length
    let c := s.pendingChars.getD j 0
    { s with
      pendingChars := s.pendingChars.eraseIdx j,
      visibleText := insert c s.visibleText,
      active := insert c s.active,
      textSpawnDelay := 1 }
  else
    { s with textSpawnDelay := s.textSpawnDelay - 1 }

/-- The engine collaborator's `self.update()` as it affects the tracked
state: every owned particle moves along its path (oracle `engine`, which by
construction preserves identity and visibility), and settled characters are
pruned from the active set (oracle `keepActive`). -/
def msEngineStep (r : MSRand) (s : MSState) : MSState :=
  { s with
    backgroundSnow := s.backgroundSnow.map
      (fun p => let q := r.engine p; ⟨p.id, q.column, q.row, q.pathActive, p.visible⟩),
    active := s.active.filter (fun c => r.keepActive c) }

/-- One full `MoreSnowIterator.__next__` call, in source order: background
spawn, landing check, text drain, wall-clock termination test (raising
`StopIteration` before `self.update()` runs), then the engine update.
The returned flag is `true` when the iterator signalled end-of-sequence. -/
def msTick (cv : Canvas) (r : MSRand) (s : MSState) : MSState × Bool :=
  let s1 := msSpawnStep cv r s
  let s2 := msLandingStep cv s1
  let s3 := msDrainStep r s2
  if r.timeUp then (s3, true) else (msEngineStep r s3, false)

/-- Modelled from the spec: the within-tick ordering guarantee of §5 — queue
drain, then spawn, then landing checks, then termination evaluation — stated
as an alternative tick for `MoreSnowIterator`, to be compared with `msTick`
(whose source interleaves the same steps in a different order). -/
def msTickSpecOrder (cv : Canvas) (r : MSRand) (s : MSState) : MSState × Bool :=
  let s1 := msDrainStep r s
  let s2 := msSpawnStep cv r s1
  let s3 := msLandingStep cv s2
  if r.timeUp then (s3, true) else (msEngineStep r s3, false)

/-- Run `MoreSnowIterator` over a list of per-tick oracles; once the iterator
has signalled end-of-sequence, the state is frozen. -/
def msRunList (cv : Canvas) : List MSRand → MSState × Bool → MSState × Bool
  | [], t => t
  | r :: rs, t => msRunList cv rs (if t.2 then t else msTick cv r t.1)

/-- Run `MoreSnowIterator` for `n` ticks with a per-tick oracle function. -/
def msRunN (cv : Canvas) (f : Nat → MSRand) : Nat → MSState × Bool → MSState × Bool
  | 0, t => t
  | n + 1, t =>
    let u := msRunN cv f n t
    if u.2 then u else msTick cv (f n) u.1

/-- Mutable state of `SnowIterator` observed by the simulation core. -/
@[ext]

structure SnowState where
  pendingChars : List Nat
  visibleChars : Finset Nat
  active : Finset Nat

/-- Oracle inputs for one `SnowIterator.__next__` call: the
`random.randint(1, 3)` release count, the `random.randint(0, len - 1)` pop
index of each release iteration, and the engine's active-set pruning. -/
structure SnowRand where
  releaseCount : Nat
  popIdx : Nat → Nat
  keepActive : Nat → Bool

/-- The release loop of `SnowIterator.__next__`: up to `releaseCount`
iterations, each popping a pending character at a random index and making it
visible and active; an empty queue breaks out of the loop. -/
def snowRelease (r : SnowRand) : Nat → SnowState → SnowState
  | 0, s => s
  | k + 1, s =>
    if s.pendingChars = [] then s
    else
      let j := r.popIdx k % s.pendingChars.length
      let c := s.pendingChars.getD j 0
      snowRelease r k
        { s with
          pendingChars := s.pendingChars.eraseIdx j,
          visibleChars := insert c s.visibleChars,
          active := insert c s.active }

/-- One full `SnowIterator.__next__` call: while pending or active
characters remain, release a few pending characters and run the engine
update; otherwise signal end-of-sequence. -/
def snowTick (r : SnowRand) (s : SnowState) : SnowState × Bool :=
  if s.pendingChars = [] ∧ s.active = ∅ then (s, true)
  else
    let s1 := if s.pendingChars = [] then s else snowRelease r r.releaseCount s
    ({ s1 with active := s1.active.filter (fun c => r.keepActive c) }, false)

/-- A tree character of `ChristmasIterator`: its particle state plus the
`is_star or is_bauble` flag stored as the third component of
`self.tree_chars` (whether the character gets a bright light-up scene). -/
structure TreeChar where
  p : Particle
  shouldPop : Bool
deriving DecidableEq, Repr

/-- Mutable state of `ChristmasIterator` observed by the simulation core.
`visibleChars` records visibility of tree and input-text characters;
`litLights` records which tree characters had their bright scene activated. -/
@[ext]

structure XmasState where
  pendingChars : List Nat
  treeChars : List TreeChar
  lightsToActivate : List Nat
  litLights : Finset Nat
  inputChars : List Particle
  backgroundSnow : List Particle
  pile : Int → Nat
  textSpawnDelay : Int
  backgroundSpawnDelay : Int
  textComplete : Bool
  fadeoutCounter : Nat
  spawnStopped : Bool
  lightDelay : Int
  inputCharsRevealed : Bool
  snowAccelerated : Bool
  visibleChars : Finset Nat
  active : Finset Nat
  nextId : Nat

/-- Oracle inputs for one `ChristmasIterator.__next__` call: the
`random.randint(1, 2)` tree-build release count, the `random.random()` spawn
roll, the `random.randint(left, right)` spawn column, and the engine update. -/
structure XmasRand where
  drainCount : Nat
  spawnRoll : ℚ
  spawnCol : Int
  engine : Particle → Particle
  keepActive : Nat → Bool

/-- Helper for the Christmas build block: make the released tree characters
visible and active. -/
def xmasReleaseChars (cs : List Nat) (s : XmasState) : XmasState :=
  { s with
    visibleChars := cs.foldl (fun a c => insert c a) s.visibleChars,
    active := cs.foldl (fun a c => insert c a) s.active }

/-- The build block of `ChristmasIterator.__next__` (the leading
`if self.pending_chars: ... elif not self.text_complete: ...`): while pending
tree characters remain, release `min(randint(1, 2), len)` of them from the
front on a delay of 2; once the queue is empty and every tree character has
settled, set `text_complete` and queue the star/bauble lights sorted by
current row ascending. -/
def xmasBuildStep (r : XmasRand) (s : XmasState) : XmasState :=
  if s.pendingChars ≠ [] then
    if s.textSpawnDelay ≤ 0 then
      let n := min r.drainCount s.pendingChars.length
      { (xmasReleaseChars (s.pendingChars.take n) s) with
        pendingChars := s.pendingChars.drop n,
        textSpawnDelay := 2 }
    else
      { s with textSpawnDelay := s.textSpawnDelay - 1 }
  else if ¬s.textComplete then
    if s.treeChars.all (fun t => !t.p.pathActive) then
      { s with
        textComplete := true,
        lightsToActivate :=
          ((s.treeChars.filter (fun t => t.shouldPop)).mergeSort
            (fun a b => a.p.row ≤ b.p.row)).map (fun t => t.p.id) }
    else s
  else s

/-- The light-up block of `ChristmasIterator.__next__`: once the tree is
complete, pop one queued light every 3 ticks and activate its bright scene. -/
def xmasLightsStep (s : XmasState) : XmasState :=
  if s.textComplete ∧ s.lightsToActivate ≠ [] then
    if s.lightDelay ≤ 0 then
      { s with
        lightsToActivate := s.lightsToActivate.drop 1,
        litLights := insert (s.lightsToActivate.headD 0) s.litLights,
        lightDelay := 3 }
    else
      { s with lightDelay := s.lightDelay - 1 }
  else s

/-- The input-text reveal block of `ChristmasIterator.__next__`: when the
lights are done and the input text has not been revealed, make every input
character visible and active (one-shot). -/
def xmasRevealStep (s : XmasState) : XmasState :=
  if s.textComplete ∧ s.lightsToActivate = [] ∧ ¬s.inputCharsRevealed then
    { s with
      inputCharsRevealed := true,
      visibleChars := s.inputChars.foldl (fun a p => insert p.id a) s.visibleChars,
      active := s.inputChars.foldl (fun a p => insert p.id a) s.active }
  else s

/-- The snow-acceleration block of `ChristmasIterator.__next__`: once the
input text has settled, set the one-shot flag (the re-pathing of in-flight
background snow replaces one active path with another active path toward the
bottom, which leaves every tracked particle field unchanged). -/
def xmasAccelStep (s : XmasState) : XmasState :=
  if s.inputCharsRevealed ∧ ¬s.snowAccelerated then
    if s.inputChars.all (fun p => !p.pathActive) then
      { s with snowAccelerated := true }
    else s
  else s

/-- `ChristmasIterator.spawn_background_snowflake` as it affects iterator
state (the `speed_multiplier` only affects the engine-side path speed). -/
def xmasSpawnOne (cv : Canvas) (r : XmasRand) (s : XmasState) : XmasState :=
  { s with
    backgroundSnow := s.backgroundSnow ++ [⟨s.nextId, r.spawnCol, cv.top, true, true⟩],
    active := insert s.nextId s.active,
    nextId := s.nextId + 1 }

/-- The spawn block of `ChristmasIterator.__next__`: while spawning has not
stopped, either (tree complete) increment the fade counter, stop spawning
once it exceeds 600 and otherwise spawn with probability 0.15 on a delay of
3, or (still building) spawn with probability 0.25 on a delay of 3. -/
def xmasSpawnStep (cv : Canvas) (r : XmasRand) (s : XmasState) : XmasState :=
  if s.spawnStopped then s
  else if s.textComplete then
    let fc := s.fadeoutCounter + 1
    if 600 < fc then
      { s with fadeoutCounter := fc, spawnStopped := true }
    else if s.backgroundSpawnDelay ≤ 0 then
      if r.spawnRoll < 15 / 100 then
        { (xmasSpawnOne cv r s) with fadeoutCounter := fc, backgroundSpawnDelay := 3 }
      else
        { s with fadeoutCounter := fc, backgroundSpawnDelay := 3 }
    else
      { s with fadeoutCounter := fc, backgroundSpawnDelay := s.backgroundSpawnDelay - 1 }
  else if s.backgroundSpawnDelay ≤ 0 then
    if r.spawnRoll < 25 / 100 then
      { (xmasSpawnOne cv r s) with backgroundSpawnDelay := 3 }
    else
      { s with backgroundSpawnDelay := 3 }
  else
    { s with backgroundSpawnDelay := s.backgroundSpawnDelay - 1 }

/-- The landing block of `ChristmasIterator.__next__`. -/
def xmasLandingStep (cv : Canvas) (s : XmasState) : XmasState :=
  let res := xmasLandingPass s.spawnStopped cv.bottom s.backgroundSnow s.pile
  { s with backgroundSnow := res.1, pile := res.2.1 }

/-- The engine collaborator's `self.update()` for the Christmas iterator:
all owned particles move along their paths; settled characters are pruned
from the active set. -/
def xmasEngineStep (r : XmasRand) (s : XmasState) : XmasState :=
  { s with
    treeChars := s.treeChars.map
      (fun t => let q := r.engine t.p; ⟨⟨t.p.id, q.column, q.row, q.pathActive, t.p.visible⟩, t.shouldPop⟩),
    inputChars := s.inputChars.map
      (fun p => let q := r.engine p; ⟨p.id, q.column, q.row, q.pathActive, p.visible⟩),
    backgroundSnow := s.backgroundSnow.map
      (fun p => let q := r.engine p; ⟨p.id, q.column, q.row, q.pathActive, p.visible⟩),
    active := s.active.filter (fun c => r.keepActive c) }

/-- One full `ChristmasIterator.__next__` call, in source order: tree-build
drain / settle detection, light-up, input-text reveal, snow acceleration,
background spawn, landing check, termination test (`spawn_stopped` and no
background snow, raising `StopIteration` before `self.update()`), then the
engine update. -/
def xmasTick (cv : Canvas) (r : XmasRand) (s : XmasState) : XmasState × Bool :=
  let s5 := xmasAccelStep (xmasRevealStep (xmasLightsStep (xmasBuildStep r s)))
  let s6 := xmasSpawnStep cv r s5
  let s7 := xmasLandingStep cv s6
  if s7.spawnStopped && s7.backgroundSnow.isEmpty then (s7, true)
  else (xmasEngineStep r s7, false)

/-- Run `ChristmasIterator` over a list of per-tick oracles, freezing the
state once end-of-sequence has been signalled. -/
def xmasRunList (cv : Canvas) : List XmasRand → XmasState × Bool → XmasState × Bool
  | [], t => t
  | r :: rs, t => xmasRunList cv rs (if t.2 then t else xmasTick cv r t.1)

/-- Run `ChristmasIterator` for `n` ticks with the same per-tick oracle. -/
def xmasRunN (cv : Canvas) (r : XmasRand) : Nat → XmasState × Bool → XmasState × Bool
  | 0, t => t
  | n + 1, t =>
    let u := xmasRunN cv r n t
    if u.2 then u else xmasTick cv r u.1

/-- A concrete canvas for witness instantiations. -/
def testCanvas : Canvas := ⟨0, 10, 20, 1⟩

/-- A concrete MoreSnow iterator state (fresh iterator, empty pile). -/
def msTestState : MSState := ⟨[1, 2], [], fun _ => 0, 0, 0, ∅, ∅, 100⟩

/-- A concrete MoreSnow per-tick oracle. -/
def msTestRand : MSRand := ⟨3, fun _ => 4, 0, false, fun p => p, fun _ => true⟩

/-- A concrete Christmas iterator state (fresh iterator, empty pile). -/
def xmasTestState : XmasState :=
  ⟨[1, 2], [], [], ∅, [], [], fun _ => 0, 0, 0, false, 0, false, 0, false, false, ∅, ∅, 100⟩

/-- A concrete Christmas per-tick oracle. -/
def xmasTestRand : XmasRand := ⟨1, 1 / 2, 4, fun p => p, fun _ => true⟩

/-- The seven background particles of the pile-tracker scenario: all landed
(no active path) at column 10. -/
def c2Flakes : List Particle :=
  [⟨1, 10, 0, false, true⟩, ⟨2, 10, 0, false, true⟩, ⟨3, 10, 0, false, true⟩,
   ⟨4, 10, 0, false, true⟩, ⟨5, 10, 0, false, true⟩, ⟨6, 10, 0, false, true⟩,
   ⟨7, 10, 0, false, true⟩]

/-- A concrete Christmas state already in the spawn-stopped phase, with one
landed and one in-flight background particle. -/
def xmasStoppedTestState : XmasState :=
  ⟨[], [], [], ∅, [], [⟨1, 3, 1, false, true⟩, ⟨2, 4, 7, true, true⟩],
   fun _ => 0, 0, 0, true, 601, true, 0, true, true, ∅, ∅, 100⟩

/-- The Christmas iterator state right after the reveal completes: tree
complete, lights done, input text revealed and settled, no background
particles, fade counter 0. -/
def xmasFadeInit : XmasState :=
  ⟨[], [], [], ∅, [], [], fun _ => 0, 0, 0, true, 0, false, 0, true, true, ∅, ∅, 0⟩

/-- A per-tick oracle whose spawn roll (1.0) never passes the 15 percent
spawn gate. -/
def xmasNoSpawnRand : XmasRand := ⟨1, 1, 0, fun p => p, fun _ => true⟩

/-- Run `SnowIterator` over a list of per-tick oracles, freezing the state
once end-of-sequence has been signalled. -/
def snowRunList : List SnowRand → SnowState × Bool → SnowState × Bool
  | [], t => t
  | r :: rs, t => snowRunList rs (if t.2 then t else snowTick r t.1)

/-- A concrete Snow iterator state with two pending characters. -/
def snowTestState : SnowState := ⟨[1, 2], ∅, ∅⟩

/-- A concrete Snow per-tick oracle releasing one character per tick. -/
def snowTestRand : SnowRand := ⟨1, fun _ => 0, fun _ => true⟩

/-- The MoreSnow landing pass never decreases any column's height. -/
theorem msLandingPass_pile_mono (bottom : Int) (l : List Particle) (pile : Int → Nat) (c : Int) :
    pile c ≤ (msLandingPass bottom l pile).2.1 c := by
  induction l generalizing pile with
  | nil => simp [msLandingPass]
  | cons snow rest ih =>
    by_cases ha : snow.pathActive
    · simpa [msLandingPass, msLandOne, ha] using ih pile
    · by_cases h5 : pile snow.column < 5
      · have h := ih (fun d => if d = snow.column then pile snow.column + 1 else pile d)
        simp only [msLandingPass, msLandOne, ha, h5, if_true, if_false, Bool.false_eq_true]
        refine le_trans ?_ h
        by_cases hc : c = snow.column <;> simp [hc]
      · simpa [msLandingPass, msLandOne, ha, h5] using ih pile

/-- The MoreSnow landing pass keeps every column at or below the cap of 5. -/
theorem msLandingPass_pile_cap (bottom : Int) (l : List Particle) (pile : Int → Nat)
    (hcap : ∀ c, pile c ≤ 5) (c : Int) :
    (msLandingPass bottom l pile).2.1 c ≤ 5 := by
  induction l generalizing pile with
  | nil => simpa [msLandingPass] using hcap c
  | cons snow rest ih =>
    by_cases ha : snow.pathActive
    · simpa [msLandingPass, msLandOne, ha] using ih pile hcap
    · by_cases h5 : pile snow.column < 5
      · simp only [msLandingPass, msLandOne, ha, h5, if_true, if_false, Bool.false_eq_true]
        refine ih _ ?_
        intro d
        by_cases hd : d = snow.column <;> simp [hd, hcap d]
        omega
      · simpa [msLandingPass, msLandOne, ha, h5] using ih pile hcap

/-- Exact accounting for the MoreSnow landing pass: each column's height grows
by exactly the number of successful stacks registered there, one per stack. -/
theorem msLandingPass_pile_eq (bottom : Int) (l : List Particle) (pile : Int → Nat) (c : Int) :
    (msLandingPass bottom l pile).2.1 c = pile c + msStackedCount bottom l pile c := by
  induction l generalizing pile with
  | nil => simp [msLandingPass, msStackedCount]
  | cons snow rest ih =>
    by_cases ha : snow.pathActive
    · simpa [msLandingPass, msLandOne, msStackedCount, ha] using ih pile
    · by_cases h5 : pile snow.column < 5
      · have h := ih (fun d => if d = snow.column then pile snow.column + 1 else pile d)
        simp only [msLandingPass, msLandOne, msStackedCount, ha, h5, if_true, if_false,
          Bool.false_eq_true]
        rw [h]
        by_cases hc : c = snow.column <;> simp [hc] <;> omega
      · simpa [msLandingPass, msLandOne, msStackedCount, ha, h5] using ih pile

/-- A particle whose path is still active passes through the MoreSnow landing
pass untouched: it stays in `background_snow` with the same state. -/
theorem msLandingPass_active_mem (bottom : Int) (p : Particle) (ha : p.pathActive = true) :
    ∀ (l : List Particle) (pile : Int → Nat), p ∈ l → p ∈ (msLandingPass bottom l pile).1 := by
  intro l
  induction l with
  | nil => intro pile hp; simp at hp
  | cons snow rest ih =>
    intro pile hp
    rcases List.mem_cons.mp hp with hp | hp
    · subst hp
      simp [msLandingPass, msLandOne, ha]
    · by_cases hsa : snow.pathActive
      · simp only [msLandingPass, msLandOne, hsa, if_true]
        simpa using Or.inr (ih pile hp)
      · by_cases h5 : pile snow.column < 5
        · simp only [msLandingPass, msLandOne, hsa, h5, if_true, if_false, Bool.false_eq_true]
          simpa using Or.inr (ih _ hp)
        · simp only [msLandingPass, msLandOne, hsa, h5, if_true, if_false, Bool.false_eq_true]
          simpa using ih pile hp

/-- Every particle removed by the MoreSnow landing pass had a completed path. -/
theorem msLandingPass_removed_inactive (bottom : Int) (p : Particle) :
    ∀ (l : List Particle) (pile : Int → Nat),
      p ∈ (msLandingPass bottom l pile).2.2 → p.pathActive = false := by
  intro l
  induction l with
  | nil => intro pile hp; simp [msLandingPass] at hp
  | cons snow rest ih =>
    intro pile hp
    by_cases hsa : snow.pathActive
    · simp only [msLandingPass, msLandOne, hsa, if_true] at hp
      exact ih pile (by simpa using hp)
    · by_cases h5 : pile snow.column < 5
      · simp only [msLandingPass, msLandOne, hsa, h5, if_true, if_false,
          Bool.false_eq_true] at hp
        exact ih _ (by simpa using hp)
      · simp only [msLandingPass, msLandOne, hsa, h5, if_true, if_false,
          Bool.false_eq_true] at hp
        simp only [List.singleton_append, List.mem_cons] at hp
        rcases hp with hp | hp
        · subst hp
          rfl
        · exact ih pile hp

/-- Full characterization of the Christmas landing pass in the terminal
spawn-stopped phase: landed particles are removed (made invisible, original
coordinates untouched), in-flight particles are retained unchanged, and the
pile map is returned unmodified. -/
theorem xmasLandingPass_spawnStopped (bottom : Int) (l : List Particle) (pile : Int → Nat) :
    (xmasLandingPass true bottom l pile).1 = l.filter (fun p => p.pathActive)
    ∧ (xmasLandingPass true bottom l pile).2.1 = pile
    ∧ (xmasLandingPass true bottom l pile).2.2 =
        (l.filter (fun p => !p.pathActive)).map (fun p => { p with visible := false }) := by
  induction l generalizing pile with
  | nil => simp [xmasLandingPass]
  | cons snow rest ih =>
    by_cases hsa : snow.pathActive
    · have h := ih pile
      simp [xmasLandingPass, xmasLandOne, hsa, h.1, h.2.1, h.2.2]
    · have h := ih pile
      simp [xmasLandingPass, xmasLandOne, hsa, h.1, h.2.1, h.2.2,
        Bool.not_eq_true _ |>.mp hsa]

/-- No stack is ever registered during a spawn-stopped Christmas landing pass. -/
theorem xmasStackedCount_spawnStopped (bottom : Int) (l : List Particle)
    (pile : Int → Nat) (c : Int) :
    xmasStackedCount true bottom l pile c = 0 := by
  induction l generalizing pile with
  | nil => simp [xmasStackedCount]
  | cons snow rest ih =>
    by_cases hsa : snow.pathActive <;> simp [xmasStackedCount, hsa, ih]

/-- The Christmas landing pass never decreases any column's height. -/
theorem xmasLandingPass_pile_mono (ss : Bool) (bottom : Int) (l : List Particle)
    (pile : Int → Nat) (c : Int) :
    pile c ≤ (xmasLandingPass ss bottom l pile).2.1 c := by
  rcases Bool.eq_false_or_eq_true ss with hss | hss
  · subst hss
    simp [xmasLandingPass_spawnStopped bottom l pile |>.2.1]
  · subst hss
    induction l generalizing pile with
    | nil => simp [xmasLandingPass]
    | cons snow rest ih =>
      by_cases ha : snow.pathActive
      · simpa [xmasLandingPass, xmasLandOne, ha] using ih pile
      · by_cases h5 : pile snow.column < 5
        · have h := ih (fun d => if d = snow.column then pile snow.column + 1 else pile d)
          simp only [xmasLandingPass, xmasLandOne, ha, h5, if_true, if_false,
            Bool.false_eq_true]
          refine le_trans ?_ h
          by_cases hc : c = snow.column <;> simp [hc]
        · simpa [xmasLandingPass, xmasLandOne, ha, h5] using ih pile

/-- The Christmas landing pass keeps every column at or below the cap of 5. -/
theorem xmasLandingPass_pile_cap (ss : Bool) (bottom : Int) (l : List Particle)
    (pile : Int → Nat) (hcap : ∀ c, pile c ≤ 5) (c : Int) :
    (xmasLandingPass ss bottom l pile).2.1 c ≤ 5 := by
  rcases Bool.eq_false_or_eq_true ss with hss | hss
  · subst hss
    simp [xmasLandingPass_spawnStopped bottom l pile |>.2.1, hcap c]
  · subst hss
    induction l generalizing pile with
    | nil => simpa [xmasLandingPass] using hcap c
    | cons snow rest ih =>
      by_cases ha : snow.pathActive
      · simpa [xmasLandingPass, xmasLandOne, ha] using ih pile hcap
      · by_cases h5 : pile snow.column < 5
        · simp only [xmasLandingPass, xmasLandOne, ha, h5, if_true, if_false,
            Bool.false_eq_true]
          refine ih _ ?_
          intro d
          by_cases hd : d = snow.column <;> simp [hd, hcap d]
          omega
        · simpa [xmasLandingPass, xmasLandOne, ha, h5] using ih pile hcap

/-- Exact accounting for the Christmas landing pass: each column's height
grows by exactly the number of successful stacks registered there. -/
theorem xmasLandingPass_pile_eq (ss : Bool) (bottom : Int) (l : List Particle)
    (pile : Int → Nat) (c : Int) :
    (xmasLandingPass ss bottom l pile).2.1 c = pile c + xmasStackedCount ss bottom l pile c := by
  rcases Bool.eq_false_or_eq_true ss with hss | hss
  · subst hss
    simp [xmasLandingPass_spawnStopped bottom l pile |>.2.1,
      xmasStackedCount_spawnStopped]
  · subst hss
    induction l generalizing pile with
    | nil => simp [xmasLandingPass, xmasStackedCount]
    | cons snow rest ih =>
      by_cases ha : snow.pathActive
      · simpa [xmasLandingPass, xmasLandOne, xmasStackedCount, ha] using ih pile
      · by_cases h5 : pile snow.column < 5
        · have h := ih (fun d => if d = snow.column then pile snow.column + 1 else pile d)
          simp only [xmasLandingPass, xmasLandOne, xmasStackedCount, ha, h5, if_true,
            if_false, Bool.false_eq_true]
          rw [h]
          by_cases hc : c = snow.column <;> simp [hc] <;> omega
        · simpa [xmasLandingPass, xmasLandOne, xmasStackedCount, ha, h5] using ih pile

/-- A particle whose path is still active passes through the Christmas
landing pass untouched. -/
theorem xmasLandingPass_active_mem (ss : Bool) (bottom : Int) (p : Particle)
    (ha : p.pathActive = true) :
    ∀ (l : List Particle) (pile : Int → Nat),
      p ∈ l → p ∈ (xmasLandingPass ss bottom l pile).1 := by
  rcases Bool.eq_false_or_eq_true ss with hss | hss
  · subst hss
    intro l pile hp
    rw [xmasLandingPass_spawnStopped bottom l pile |>.1]
    simpa [List.mem_filter] using And.intro hp ha
  · subst hss
    intro l
    induction l with
    | nil => intro pile hp; simp at hp
    | cons snow rest ih =>
      intro pile hp
      rcases List.mem_cons.mp hp with hp | hp
      · subst hp
        simp [xmasLandingPass, xmasLandOne, ha]
      · by_cases hsa : snow.pathActive
        · simp only [xmasLandingPass, xmasLandOne, hsa, if_true]
          simpa using Or.inr (ih pile hp)
        · by_cases h5 : pile snow.column < 5
          · simp only [xmasLandingPass, xmasLandOne, hsa, h5, if_true, if_false,
              Bool.false_eq_true]
            simpa using Or.inr (ih _ hp)
          · simp only [xmasLandingPass, xmasLandOne, hsa, h5, if_true, if_false,
              Bool.false_eq_true]
            simpa using ih pile hp

/-- Every particle removed by the Christmas landing pass had a completed path. -/
theorem xmasLandingPass_removed_inactive (ss : Bool) (bottom : Int) (p : Particle) :
    ∀ (l : List Particle) (pile : Int → Nat),
      p ∈ (xmasLandingPass ss bottom l pile).2.2 → p.pathActive = false := by
  rcases Bool.eq_false_or_eq_true ss with hss | hss
  · subst hss
    intro l pile hp
    rw [xmasLandingPass_spawnStopped bottom l pile |>.2.2] at hp
    simp only [List.mem_map, List.mem_filter] at hp
    rcases hp with ⟨q, ⟨_, hq⟩, rfl⟩
    simpa using hq
  · subst hss
    intro l
    induction l with
    | nil => intro pile hp; simp [xmasLandingPass] at hp
    | cons snow rest ih =>
      intro pile hp
      by_cases hsa : snow.pathActive
      · simp only [xmasLandingPass, xmasLandOne, hsa, if_true] at hp
        exact ih pile (by simpa using hp)
      · by_cases h5 : pile snow.column < 5
        · simp only [xmasLandingPass, xmasLandOne, hsa, h5, if_true, if_false,
            Bool.false_eq_true] at hp
          exact ih _ (by simpa using hp)
        · simp only [xmasLandingPass, xmasLandOne, hsa, h5, if_true, if_false,
            Bool.false_eq_true] at hp
          simp only [List.singleton_append, List.mem_cons] at hp
          rcases hp with hp | hp
          · subst hp
            rfl
          · exact ih pile hp

/-- The spawn fold of the MoreSnow spawn block leaves the pending queue,
the pile map, the text delay and the visibility set untouched, and only
appends freshly spawned particles, all of which carry an active path. -/
theorem msSpawnFold_spec (top : Int) (cols : Nat → Int) (ks : List Nat) :
    ∀ s : MSState,
      (ks.foldl (fun t k => msSpawnOne top (cols k) t) s).pendingChars = s.pendingChars
      ∧ (ks.foldl (fun t k => msSpawnOne top (cols k) t) s).pile = s.pile
      ∧ (ks.foldl (fun t k => msSpawnOne top (cols k) t) s).textSpawnDelay = s.textSpawnDelay
      ∧ (ks.foldl (fun t k => msSpawnOne top (cols k) t) s).visibleText = s.visibleText
      ∧ (ks.foldl (fun t k => msSpawnOne top (cols k) t) s).backgroundSpawnDelay
          = s.backgroundSpawnDelay
      ∧ ∃ l : List Particle,
          (ks.foldl (fun t k => msSpawnOne top (cols k) t) s).backgroundSnow
            = s.backgroundSnow ++ l
          ∧ ∀ p ∈ l, p.pathActive = true := by
  induction ks with
  | nil =>
    intro s
    refine ⟨rfl, rfl, rfl, rfl, rfl, [], by simp⟩
  | cons k ks ih =>
    intro s
    have h := ih (msSpawnOne top (cols k) s)
    rcases h with ⟨h1, h2, h3, h4, h5, l, hl, hact⟩
    rw [List.foldl_cons]
    refine ⟨h1, h2, h3, h4, h5, ⟨s.nextId, cols k, top, true, true⟩ :: l, ?_, ?_⟩
    · rw [hl]
      simp [msSpawnOne]
    · intro p hp
      rcases List.mem_cons.mp hp with hp | hp
      · subst hp; rfl
      · exact hact p hp

/-- The MoreSnow spawn block leaves the pending queue, the pile map, the
text delay and the visibility set untouched, and only appends particles
with an active path to `background_snow`. -/
theorem msSpawnStep_spec (cv : Canvas) (r : MSRand) (s : MSState) :
    (msSpawnStep cv r s).pendingChars = s.pendingChars
    ∧ (msSpawnStep cv r s).pile = s.pile
    ∧ (msSpawnStep cv r s).textSpawnDelay = s.textSpawnDelay
    ∧ (msSpawnStep cv r s).visibleText = s.visibleText
    ∧ ∃ l : List Particle,
        (msSpawnStep cv r s).backgroundSnow = s.backgroundSnow ++ l
        ∧ ∀ p ∈ l, p.pathActive = true := by
  by_cases hd : s.backgroundSpawnDelay ≤ 0
  · have h := msSpawnFold_spec cv.top r.spawnCol (List.range r.spawnCount) s
    rcases h with ⟨h1, h2, h3, h4, _, l, hl, hact⟩
    simp only [msSpawnStep, hd, if_true]
    exact ⟨h1, h2, h3, h4, l, hl, hact⟩
  · refine ⟨?_, ?_, ?_, ?_, [], ?_, ?_⟩ <;> simp [msSpawnStep, hd]

/-- The MoreSnow text-drain block leaves `background_snow`, the pile map and
the background delay untouched. -/
theorem msDrainStep_spec (r : MSRand) (s : MSState) :
    (msDrainStep r s).backgroundSnow = s.backgroundSnow
    ∧ (msDrainStep r s).pile = s.pile
    ∧ (msDrainStep r s).backgroundSpawnDelay = s.backgroundSpawnDelay := by
  unfold msDrainStep
  repeat' split
  all_goals simp

/-- The MoreSnow landing block only touches `background_snow` and the pile. -/
theorem msLandingStep_spec (cv : Canvas) (s : MSState) :
    (msLandingStep cv s).pendingChars = s.pendingChars
    ∧ (msLandingStep cv s).textSpawnDelay = s.textSpawnDelay
    ∧ (msLandingStep cv s).backgroundSpawnDelay = s.backgroundSpawnDelay
    ∧ (msLandingStep cv s).visibleText = s.visibleText
    ∧ (msLandingStep cv s).active = s.active
    ∧ (msLandingStep cv s).nextId = s.nextId := by
  exact ⟨rfl, rfl, rfl, rfl, rfl, rfl⟩

/-- The engine update leaves the pending queue, the pile map, the delays and
the visibility set of the MoreSnow iterator untouched. -/
theorem msEngineStep_spec (r : MSRand) (s : MSState) :
    (msEngineStep r s).pendingChars = s.pendingChars
    ∧ (msEngineStep r s).pile = s.pile
    ∧ (msEngineStep r s).textSpawnDelay = s.textSpawnDelay
    ∧ (msEngineStep r s).backgroundSpawnDelay = s.backgroundSpawnDelay
    ∧ (msEngineStep r s).visibleText = s.visibleText := by
  exact ⟨rfl, rfl, rfl, rfl, rfl⟩

/-- Column heights never decrease across one `MoreSnowIterator.__next__`. -/
theorem msTick_pile_mono (cv : Canvas) (r : MSRand) (s : MSState) (c : Int) :
    s.pile c ≤ (msTick cv r s).1.pile c := by
  unfold msTick
  have h1 := (msSpawnStep_spec cv r s).2.1
  have h2 := (msDrainStep_spec r (msLandingStep cv (msSpawnStep cv r s))).2.1
  have h3 := msLandingPass_pile_mono cv.bottom (msSpawnStep cv r s).backgroundSnow
    (msSpawnStep cv r s).pile c
  by_cases ht : r.timeUp
  · simp only [ht, if_true]
    show s.pile c ≤ (msDrainStep r (msLandingStep cv (msSpawnStep cv r s))).pile c
    rw [h2]
    show s.pile c ≤ (msLandingStep cv (msSpawnStep cv r s)).pile c
    calc s.pile c = (msSpawnStep cv r s).pile c := by rw [h1]
    _ ≤ _ := h3
  · simp only [ht, if_false]
    show s.pile c ≤ (msEngineStep r (msDrainStep r (msLandingStep cv (msSpawnStep cv r s)))).pile c
    rw [(msEngineStep_spec r _).2.1, h2]
    show s.pile c ≤ (msLandingStep cv (msSpawnStep cv r s)).pile c
    calc s.pile c = (msSpawnStep cv r s).pile c := by rw [h1]
    _ ≤ _ := h3

/-- Column heights stay at or below the cap of 5 across one
`MoreSnowIterator.__next__`. -/
theorem msTick_pile_cap (cv : Canvas) (r : MSRand) (s : MSState)
    (hcap : ∀ c, s.pile c ≤ 5) (c : Int) :
    (msTick cv r s).1.pile c ≤ 5 := by
  unfold msTick
  have h1 := (msSpawnStep_spec cv r s).2.1
  have h2 := (msDrainStep_spec r (msLandingStep cv (msSpawnStep cv r s))).2.1
  have h3 := msLandingPass_pile_cap cv.bottom (msSpawnStep cv r s).backgroundSnow
    (msSpawnStep cv r s).pile (by intro d; rw [h1]; exact hcap d) c
  by_cases ht : r.timeUp
  · simp only [ht, if_true]
    show (msDrainStep r (msLandingStep cv (msSpawnStep cv r s))).pile c ≤ 5
    rw [h2]
    exact h3
  · simp only [ht, if_false]
    show (msEngineStep r (msDrainStep r (msLandingStep cv (msSpawnStep cv r s)))).pile c ≤ 5
    rw [(msEngineStep_spec r _).2.1, h2]
    exact h3

/-- The Christmas build block touches neither the pile, the background snow,
the spawn machinery counters nor the id counter, and never unsets
`text_complete`. -/
theorem xmasBuildStep_spec (r : XmasRand) (s : XmasState) :
    (xmasBuildStep r s).pile = s.pile
    ∧ (xmasBuildStep r s).backgroundSnow = s.backgroundSnow
    ∧ (xmasBuildStep r s).spawnStopped = s.spawnStopped
    ∧ (xmasBuildStep r s).fadeoutCounter = s.fadeoutCounter
    ∧ (xmasBuildStep r s).backgroundSpawnDelay = s.backgroundSpawnDelay
    ∧ (xmasBuildStep r s).nextId = s.nextId
    ∧ (s.textComplete = true → (xmasBuildStep r s).textComplete = true) := by
  unfold xmasBuildStep xmasReleaseChars
  repeat' split
  all_goals simp

/-- The Christmas light-up block only touches the light queue and delay. -/
theorem xmasLightsStep_spec (s : XmasState) :
    (xmasLightsStep s).pile = s.pile
    ∧ (xmasLightsStep s).backgroundSnow = s.backgroundSnow
    ∧ (xmasLightsStep s).spawnStopped = s.spawnStopped
    ∧ (xmasLightsStep s).fadeoutCounter = s.fadeoutCounter
    ∧ (xmasLightsStep s).backgroundSpawnDelay = s.backgroundSpawnDelay
    ∧ (xmasLightsStep s).nextId = s.nextId
    ∧ (xmasLightsStep s).textComplete = s.textComplete
    ∧ (xmasLightsStep s).pendingChars = s.pendingChars
    ∧ (xmasLightsStep s).textSpawnDelay = s.textSpawnDelay := by
  unfold xmasLightsStep
  repeat' split
  all_goals simp

/-- The Christmas input-text reveal block only touches the reveal flag, the
visibility set and the active set. -/
theorem xmasRevealStep_spec (s : XmasState) :
    (xmasRevealStep s).pile = s.pile
    ∧ (xmasRevealStep s).backgroundSnow = s.backgroundSnow
    ∧ (xmasRevealStep s).spawnStopped = s.spawnStopped
    ∧ (xmasRevealStep s).fadeoutCounter = s.fadeoutCounter
    ∧ (xmasRevealStep s).backgroundSpawnDelay = s.backgroundSpawnDelay
    ∧ (xmasRevealStep s).nextId = s.nextId
    ∧ (xmasRevealStep s).textComplete = s.textComplete
    ∧ (xmasRevealStep s).pendingChars = s.pendingChars
    ∧ (xmasRevealStep s).textSpawnDelay = s.textSpawnDelay := by
  unfold xmasRevealStep
  repeat' split
  all_goals simp

/-- The Christmas snow-acceleration block only sets its one-shot flag. -/
theorem xmasAccelStep_spec (s : XmasState) :
    (xmasAccelStep s).pile = s.pile
    ∧ (xmasAccelStep s).backgroundSnow = s.backgroundSnow
    ∧ (xmasAccelStep s).spawnStopped = s.spawnStopped
    ∧ (xmasAccelStep s).fadeoutCounter = s.fadeoutCounter
    ∧ (xmasAccelStep s).backgroundSpawnDelay = s.backgroundSpawnDelay
    ∧ (xmasAccelStep s).nextId = s.nextId
    ∧ (xmasAccelStep s).textComplete = s.textComplete
    ∧ (xmasAccelStep s).pendingChars = s.pendingChars
    ∧ (xmasAccelStep s).textSpawnDelay = s.textSpawnDelay := by
  unfold xmasAccelStep
  repeat' split
  all_goals simp

/-- The Christmas spawn block touches neither the pile, the pending queue,
the text delay nor `text_complete`; it only ever appends particles with an
active path to `background_snow`, and never unsets `spawn_stopped`. -/
theorem xmasSpawnStep_spec (cv : Canvas) (r : XmasRand) (s : XmasState) :
    (xmasSpawnStep cv r s).pile = s.pile
    ∧ (xmasSpawnStep cv r s).pendingChars = s.pendingChars
    ∧ (xmasSpawnStep cv r s).textSpawnDelay = s.textSpawnDelay
    ∧ (xmasSpawnStep cv r s).textComplete = s.textComplete
    ∧ (s.spawnStopped = true → (xmasSpawnStep cv r s).spawnStopped = true)
    ∧ ∃ l : List Particle,
        (xmasSpawnStep cv r s).backgroundSnow = s.backgroundSnow ++ l
        ∧ ∀ p ∈ l, p.pathActive = true := by
  by_cases h1 : s.spawnStopped = true
  · refine ⟨?_, ?_, ?_, ?_, fun _ => ?_, [], ?_, by simp⟩ <;>
      simp [xmasSpawnStep, h1]
  · by_cases h2 : s.textComplete = true
    · by_cases h3 : 600 < s.fadeoutCounter + 1
      · refine ⟨?_, ?_, ?_, ?_, fun hc => absurd hc h1, [], ?_, by simp⟩ <;>
          simp [xmasSpawnStep, h1, h2, h3]
      · by_cases h4 : s.backgroundSpawnDelay ≤ 0
        · by_cases h5 : r.spawnRoll < 15 / 100
          · refine ⟨?_, ?_, ?_, ?_, fun hc => absurd hc h1,
              [⟨s.nextId, r.spawnCol, cv.top, true, true⟩], ?_, by simp⟩ <;>
              simp [xmasSpawnStep, xmasSpawnOne, h1, h2, h3, h4, h5]
          · refine ⟨?_, ?_, ?_, ?_, fun hc => absurd hc h1, [], ?_, by simp⟩ <;>
              simp [xmasSpawnStep, h1, h2, h3, h4, h5]
        · refine ⟨?_, ?_, ?_, ?_, fun hc => absurd hc h1, [], ?_, by simp⟩ <;>
            simp [xmasSpawnStep, h1, h2, h3, h4]
    · by_cases h4 : s.backgroundSpawnDelay ≤ 0
      · by_cases h5 : r.spawnRoll < 25 / 100
        · refine ⟨?_, ?_, ?_, ?_, fun hc => absurd hc h1,
            [⟨s.nextId, r.spawnCol, cv.top, true, true⟩], ?_, by simp⟩ <;>
            simp [xmasSpawnStep, xmasSpawnOne, h1, h2, h4, h5]
        · refine ⟨?_, ?_, ?_, ?_, fun hc => absurd hc h1, [], ?_, by simp⟩ <;>
            simp [xmasSpawnStep, h1, h2, h4, h5]
      · refine ⟨?_, ?_, ?_, ?_, fun hc => absurd hc h1, [], ?_, by simp⟩ <;>
          simp [xmasSpawnStep, h1, h2, h4]

/-- The Christmas landing block only touches `background_snow` and the pile. -/
theorem xmasLandingStep_spec (cv : Canvas) (s : XmasState) :
    (xmasLandingStep cv s).pendingChars = s.pendingChars
    ∧ (xmasLandingStep cv s).textSpawnDelay = s.textSpawnDelay
    ∧ (xmasLandingStep cv s).backgroundSpawnDelay = s.backgroundSpawnDelay
    ∧ (xmasLandingStep cv s).textComplete = s.textComplete
    ∧ (xmasLandingStep cv s).fadeoutCounter = s.fadeoutCounter
    ∧ (xmasLandingStep cv s).spawnStopped = s.spawnStopped
    ∧ (xmasLandingStep cv s).nextId = s.nextId := by
  exact ⟨rfl, rfl, rfl, rfl, rfl, rfl, rfl⟩

/-- The engine update leaves all Christmas bookkeeping fields untouched. -/
theorem xmasEngineStep_spec (r : XmasRand) (s : XmasState) :
    (xmasEngineStep r s).pile = s.pile
    ∧ (xmasEngineStep r s).pendingChars = s.pendingChars
    ∧ (xmasEngineStep r s).textSpawnDelay = s.textSpawnDelay
    ∧ (xmasEngineStep r s).backgroundSpawnDelay = s.backgroundSpawnDelay
    ∧ (xmasEngineStep r s).textComplete = s.textComplete
    ∧ (xmasEngineStep r s).fadeoutCounter = s.fadeoutCounter
    ∧ (xmasEngineStep r s).spawnStopped = s.spawnStopped
    ∧ (xmasEngineStep r s).nextId = s.nextId := by
  exact ⟨rfl, rfl, rfl, rfl, rfl, rfl, rfl, rfl⟩

/-- The pile map of the state reached by the first five blocks of
`ChristmasIterator.__next__` equals the starting pile map. -/
theorem xmasPreLandingPile (cv : Canvas) (r : XmasRand) (s : XmasState) :
    (xmasSpawnStep cv r
      (xmasAccelStep (xmasRevealStep (xmasLightsStep (xmasBuildStep r s))))).pile = s.pile := by
  rw [(xmasSpawnStep_spec cv r _).1, (xmasAccelStep_spec _).1, (xmasRevealStep_spec _).1,
    (xmasLightsStep_spec _).1, (xmasBuildStep_spec r s).1]

/-- Column heights never decrease across one `ChristmasIterator.__next__`. -/
theorem xmasTick_pile_mono (cv : Canvas) (r : XmasRand) (s : XmasState) (c : Int) :
    s.pile c ≤ (xmasTick cv r s).1.pile c := by
  have hpre := xmasPreLandingPile cv r s
  simp only [xmasTick, xmasLandingStep]
  rw [hpre]
  split
  · exact xmasLandingPass_pile_mono _ cv.bottom _ s.pile c
  · show s.pile c ≤ (xmasEngineStep r _).pile c
    rw [(xmasEngineStep_spec r _).1]
    exact xmasLandingPass_pile_mono _ cv.bottom _ s.pile c

/-- Column heights stay at or below the cap of 5 across one
`ChristmasIterator.__next__`. -/
theorem xmasTick_pile_cap (cv : Canvas) (r : XmasRand) (s : XmasState)
    (hcap : ∀ c, s.pile c ≤ 5) (c : Int) :
    (xmasTick cv r s).1.pile c ≤ 5 := by
  have hpre := xmasPreLandingPile cv r s
  simp only [xmasTick, xmasLandingStep]
  rw [hpre]
  split
  · exact xmasLandingPass_pile_cap _ cv.bottom _ s.pile hcap c
  · show (xmasEngineStep r _).pile c ≤ 5
    rw [(xmasEngineStep_spec r _).1]
    exact xmasLandingPass_pile_cap _ cv.bottom _ s.pile hcap c

/-- Along any MoreSnow run, column heights never decrease. -/
theorem msRunList_pile_mono (cv : Canvas) (rs : List MSRand) :
    ∀ (t : MSState × Bool) (c : Int), t.1.pile c ≤ (msRunList cv rs t).1.pile c := by
  induction rs with
  | nil => intro t c; exact le_refl _
  | cons r rs ih =>
    intro t c
    simp only [msRunList]
    by_cases ht : t.2 = true
    · simp only [ht, if_true]
      exact ih t c
    · simp only [ht, if_false]
      exact le_trans (msTick_pile_mono cv r t.1 c) (ih _ c)

/-- Along any MoreSnow run, column heights stay at or below the cap of 5. -/
theorem msRunList_pile_cap (cv : Canvas) (rs : List MSRand) :
    ∀ t : MSState × Bool, (∀ c, t.1.pile c ≤ 5) →
      ∀ c, (msRunList cv rs t).1.pile c ≤ 5 := by
  induction rs with
  | nil => intro t h c; exact h c
  | cons r rs ih =>
    intro t h c
    simp only [msRunList]
    by_cases ht : t.2 = true
    · simp only [ht, if_true]
      exact ih t h c
    · simp only [ht, if_false]
      exact ih _ (msTick_pile_cap cv r t.1 h) c

/-- Along any Christmas run, column heights never decrease. -/
theorem xmasRunList_pile_mono (cv : Canvas) (rs : List XmasRand) :
    ∀ (t : XmasState × Bool) (c : Int), t.1.pile c ≤ (xmasRunList cv rs t).1.pile c := by
  induction rs with
  | nil => intro t c; exact le_refl _
  | cons r rs ih =>
    intro t c
    simp only [xmasRunList]
    by_cases ht : t.2 = true
    · simp only [ht, if_true]
      exact ih t c
    · simp only [ht, if_false]
      exact le_trans (xmasTick_pile_mono cv r t.1 c) (ih _ c)

/-- Along any Christmas run, column heights stay at or below the cap of 5. -/
theorem xmasRunList_pile_cap (cv : Canvas) (rs : List XmasRand) :
    ∀ t : XmasState × Bool, (∀ c, t.1.pile c ≤ 5) →
      ∀ c, (xmasRunList cv rs t).1.pile c ≤ 5 := by
  induction rs with
  | nil => intro t h c; exact h c
  | cons r rs ih =>
    intro t h c
    simp only [xmasRunList]
    by_cases ht : t.2 = true
    · simp only [ht, if_true]
      exact ih t h c
    · simp only [ht, if_false]
      exact ih _ (xmasTick_pile_cap cv r t.1 h) c

/-- C1: For every reachable state of the MoreSnow and Christmas iterators and
for every column in the pile map, the accumulated height (a natural number,
hence non-negative) never decreases from one tick to the next and never
exceeds the cap of 5 (both iterators start with an empty pile map, of height
0 everywhere); it increases by exactly 1 on each successful stack — each
column's height after a landing pass equals its old height plus the number of
successful stacks registered there — and no operation of either iterator
decrements any height. -/
theorem pile_height_invariant :
    (∀ (cv : Canvas) (r : MSRand) (s : MSState) (c : Int),
        s.pile c ≤ (msTick cv r s).1.pile c)
    ∧ (∀ (cv : Canvas) (r : XmasRand) (s : XmasState) (c : Int),
        s.pile c ≤ (xmasTick cv r s).1.pile c)
    ∧ (∀ (cv : Canvas) (r : MSRand) (s : MSState),
        (∀ c, s.pile c ≤ 5) → ∀ c, (msTick cv r s).1.pile c ≤ 5)
    ∧ (∀ (cv : Canvas) (r : XmasRand) (s : XmasState),
        (∀ c, s.pile c ≤ 5) → ∀ c, (xmasTick cv r s).1.pile c ≤ 5)
    ∧ (∀ (cv : Canvas) (rs : List MSRand) (s : MSState),
        (∀ c, s.pile c = 0) → ∀ c, (msRunList cv rs (s, false)).1.pile c ≤ 5)
    ∧ (∀ (cv : Canvas) (rs : List XmasRand) (s : XmasState),
        (∀ c, s.pile c = 0) → ∀ c, (xmasRunList cv rs (s, false)).1.pile c ≤ 5)
    ∧ (∀ (bottom : Int) (l : List Particle) (pile : Int → Nat) (c : Int),
        (msLandingPass bottom l pile).2.1 c = pile c + msStackedCount bottom l pile c)
    ∧ (∀ (ss : Bool) (bottom : Int) (l : List Particle) (pile : Int → Nat) (c : Int),
        (xmasLandingPass ss bottom l pile).2.1 c
          = pile c + xmasStackedCount ss bottom l pile c) := by
  refine ⟨msTick_pile_mono, xmasTick_pile_mono, msTick_pile_cap, xmasTick_pile_cap,
    ?_, ?_, msLandingPass_pile_eq, xmasLandingPass_pile_eq⟩
  · intro cv rs s h c
    exact msRunList_pile_cap cv rs (s, false) (fun d => by rw [h d]; omega) c
  · intro cv rs s h c
    exact xmasRunList_pile_cap cv rs (s, false) (fun d => by rw [h d]; omega) c

theorem pile_height_invariant_witness :
    (∀ c : Int, (msTick testCanvas msTestRand msTestState).1.pile c ≤ 5)
    ∧ (∀ c : Int, (xmasTick testCanvas xmasTestRand xmasTestState).1.pile c ≤ 5)
    ∧ (∀ c : Int, (msRunList testCanvas [msTestRand, msTestRand]
        (msTestState, false)).1.pile c ≤ 5)
    ∧ (∀ c : Int, (xmasRunList testCanvas [xmasTestRand, xmasTestRand]
        (xmasTestState, false)).1.pile c ≤ 5) :=
  ⟨pile_height_invariant.2.2.1 testCanvas msTestRand msTestState (fun _ => Nat.zero_le 5),
   pile_height_invariant.2.2.2.1 testCanvas xmasTestRand xmasTestState (fun _ => Nat.zero_le 5),
   pile_height_invariant.2.2.2.2.1 testCanvas [msTestRand, msTestRand] msTestState (fun _ => rfl),
   pile_height_invariant.2.2.2.2.2.1 testCanvas [xmasTestRand, xmasTestRand] xmasTestState
     (fun _ => rfl)⟩

/-- C2: Outside the spawn-stopped phase, a landed background particle at a
column of height h below 5 is repositioned to `base_row - h` (Christmas,
upward) or `base_row + h` (MoreSnow, downward), the column's height becomes
h + 1, and the particle is retained; at height 5 (or more) the particle is
removed — made invisible, never repositioned — and dropped from the
background set. In particular, 7 particles landing sequentially at column 10
under the upward variant leave particles 1 to 5 at rows base, base-1, base-2,
base-3, base-4 retained, and particles 6 and 7 removed and absent. -/
theorem pile_stacking_op :
    (∀ (bottom : Int) (pile : Int → Nat) (snow : Particle),
      snow.pathActive = false → pile snow.column < 5 →
        msLandOne bottom pile snow =
          (some { snow with row := bottom + (pile snow.column : Int) },
           fun c => if c = snow.column then pile snow.column + 1 else pile c, []))
    ∧ (∀ (bottom : Int) (pile : Int → Nat) (snow : Particle),
      snow.pathActive = false → pile snow.column < 5 →
        xmasLandOne false bottom pile snow =
          (some { snow with row := bottom - (pile snow.column : Int) },
           fun c => if c = snow.column then pile snow.column + 1 else pile c, []))
    ∧ (∀ (bottom : Int) (pile : Int → Nat) (snow : Particle),
      snow.pathActive = false → pile snow.column = 5 →
        msLandOne bottom pile snow = (none, pile, [{ snow with visible := false }]))
    ∧ (∀ (bottom : Int) (pile : Int → Nat) (snow : Particle),
      snow.pathActive = false → pile snow.column = 5 →
        xmasLandOne false bottom pile snow = (none, pile, [{ snow with visible := false }]))
    ∧ (xmasLandingPass false 0 c2Flakes (fun _ => 0)).1 =
        [⟨1, 10, 0, false, true⟩, ⟨2, 10, -1, false, true⟩, ⟨3, 10, -2, false, true⟩,
         ⟨4, 10, -3, false, true⟩, ⟨5, 10, -4, false, true⟩]
    ∧ (xmasLandingPass false 0 c2Flakes (fun _ => 0)).2.2 =
        [⟨6, 10, 0, false, false⟩, ⟨7, 10, 0, false, false⟩]
    ∧ (xmasLandingPass false 0 c2Flakes (fun _ => 0)).2.1 10 = 5 := by
  refine ⟨?_, ?_, ?_, ?_, by decide, by decide, by decide⟩
  · intro bottom pile snow ha h5
    simp [msLandOne, ha, h5]
  · intro bottom pile snow ha h5
    simp [xmasLandOne, ha, h5]
  · intro bottom pile snow ha h5
    simp [msLandOne, ha, h5]
  · intro bottom pile snow ha h5
    simp [xmasLandOne, ha, h5]

theorem pile_stacking_op_witness :
    msLandOne 0 (fun _ => 0) ⟨1, 10, 0, false, true⟩ =
      (some ⟨1, 10, 0, false, true⟩,
       fun c => if c = 10 then 1 else (fun _ => 0 : Int → Nat) c, [])
    ∧ xmasLandOne false 0 (fun _ => 0) ⟨1, 10, 0, false, true⟩ =
      (some ⟨1, 10, 0, false, true⟩,
       fun c => if c = 10 then 1 else (fun _ => 0 : Int → Nat) c, [])
    ∧ msLandOne 0 (fun _ => 5) ⟨1, 10, 0, false, true⟩ =
      (none, (fun _ => 5), [⟨1, 10, 0, false, false⟩])
    ∧ xmasLandOne false 0 (fun _ => 5) ⟨1, 10, 0, false, true⟩ =
      (none, (fun _ => 5), [⟨1, 10, 0, false, false⟩]) :=
  ⟨pile_stacking_op.1 0 (fun _ => 0) ⟨1, 10, 0, false, true⟩ rfl (by decide),
   pile_stacking_op.2.1 0 (fun _ => 0) ⟨1, 10, 0, false, true⟩ rfl (by decide),
   pile_stacking_op.2.2.1 0 (fun _ => 5) ⟨1, 10, 0, false, true⟩ rfl (by decide),
   pile_stacking_op.2.2.2.1 0 (fun _ => 5) ⟨1, 10, 0, false, true⟩ rfl (by decide)⟩

/-- Clamping lands inside the canvas bounds whenever they are non-empty. -/
theorem clampCol_bounds (left right c : Int) (h : left ≤ right) :
    left ≤ clampCol left right c ∧ clampCol left right c ≤ right :=
  ⟨le_max_left _ _, max_le h (min_le_left _ _)⟩

/-- C3: Every generated fall path consists of exactly `num_sways - 1`
intermediate sway waypoints (`num_sways` drawn by `randint(2, 4)`, so 1 to 3
intermediate points), followed by exactly one final waypoint at the target
position with its column clamped to the horizontal canvas bounds (for a
text-forming character the target column is its on-canvas input column, on
which the clamp is the identity); every intermediate waypoint's column lies
within `[left, right]`. In particular `num_sways = 3` yields exactly 2
intermediate waypoints plus 1 final waypoint. -/
theorem fall_path_shape :
    (∀ (top left right targetCol targetRow : Int) (numSways : Nat) (amount : Nat → Nat),
      2 ≤ numSways → numSways ≤ 4 →
        (swayWaypoints top left right (top - targetRow) numSways amount targetCol).length
            = numSways - 1
        ∧ 1 ≤ numSways - 1 ∧ numSways - 1 ≤ 3
        ∧ (buildFallPath top left right targetCol targetRow numSways amount).length = numSways
        ∧ (left ≤ targetCol → targetCol ≤ right →
            (buildFallPath top left right targetCol targetRow numSways amount).getLast?
              = some ⟨clampCol left right targetCol, targetRow⟩)
        ∧ (left ≤ right →
            ∀ w ∈ swayWaypoints top left right (top - targetRow) numSways amount targetCol,
              left ≤ w.column ∧ w.column ≤ right))
    ∧ (∀ (top bottom left right snowCol : Int) (numSways : Nat) (amount : Nat → Nat),
      2 ≤ numSways → numSways ≤ 4 →
        (swayWaypoints top left right (top - bottom) numSways amount snowCol).length
            = numSways - 1
        ∧ (bgFallPath top bottom left right snowCol numSways amount).length = numSways
        ∧ (bgFallPath top bottom left right snowCol numSways amount).getLast?
            = some ⟨clampCol left right (swayColumnAcc snowCol amount (numSways - 1)), bottom⟩
        ∧ (left ≤ right →
            ∀ w ∈ swayWaypoints top left right (top - bottom) numSways amount snowCol,
              left ≤ w.column ∧ w.column ≤ right))
    ∧ (∀ (top left right targetCol targetRow : Int) (amount : Nat → Nat),
        (swayWaypoints top left right (top - targetRow) 3 amount targetCol).length = 2
        ∧ (buildFallPath top left right targetCol targetRow 3 amount).length = 3) := by
  refine ⟨?_, ?_, ?_⟩
  · intro top left right targetCol targetRow numSways amount h2 h4
    refine ⟨by simp [swayWaypoints], by omega, by omega, ?_, ?_, ?_⟩
    · simp [buildFallPath, swayWaypoints]
      omega
    · intro hl hr
      rw [buildFallPath, List.getLast?_concat]
      have : clampCol left right targetCol = targetCol := by
        unfold clampCol
        rw [min_eq_right hr, max_eq_right hl]
      rw [this]
    · intro hlr w hw
      simp only [swayWaypoints, List.mem_map] at hw
      rcases hw with ⟨i, _, rfl⟩
      exact clampCol_bounds left right _ hlr
  · intro top bottom left right snowCol numSways amount h2 h4
    refine ⟨by simp [swayWaypoints], ?_, ?_, ?_⟩
    · simp [bgFallPath, swayWaypoints]
      omega
    · rw [bgFallPath, List.getLast?_concat]
    · intro hlr w hw
      simp only [swayWaypoints, List.mem_map] at hw
      rcases hw with ⟨i, _, rfl⟩
      exact clampCol_bounds left right _ hlr
  · intro top left right targetCol targetRow amount
    constructor
    · simp [swayWaypoints]
    · simp [buildFallPath, swayWaypoints]

theorem fall_path_shape_witness :
    ((swayWaypoints 20 0 10 (20 - 0) 3 (fun _ => 2) 5).length = 2
      ∧ 1 ≤ 3 - 1 ∧ 3 - 1 ≤ 3
      ∧ (buildFallPath 20 0 10 5 0 3 (fun _ => 2)).length = 3
      ∧ (0 ≤ (5 : Int) → (5 : Int) ≤ 10 →
          (buildFallPath 20 0 10 5 0 3 (fun _ => 2)).getLast? = some ⟨clampCol 0 10 5, 0⟩)
      ∧ ((0 : Int) ≤ 10 →
          ∀ w ∈ swayWaypoints 20 0 10 (20 - 0) 3 (fun _ => 2) 5,
            0 ≤ w.column ∧ w.column ≤ 10))
    ∧ ((swayWaypoints 20 0 10 (20 - 1) 2 (fun _ => 2) 7).length = 2 - 1
      ∧ (bgFallPath 20 1 0 10 7 2 (fun _ => 2)).length = 2
      ∧ (bgFallPath 20 1 0 10 7 2 (fun _ => 2)).getLast?
          = some ⟨clampCol 0 10 (swayColumnAcc 7 (fun _ => 2) (2 - 1)), 1⟩
      ∧ ((0 : Int) ≤ 10 →
          ∀ w ∈ swayWaypoints 20 0 10 (20 - 1) 2 (fun _ => 2) 7,
            0 ≤ w.column ∧ w.column ≤ 10)) :=
  ⟨fall_path_shape.1 20 0 10 5 0 3 (fun _ => 2) (by decide) (by decide),
   fall_path_shape.2.1 20 1 0 10 7 2 (fun _ => 2) (by decide) (by decide)⟩

/-- C8: For every generated fall path and every intermediate index i in
`1 .. num_sways - 1`, the i-th sway waypoint (list position i - 1) has row
`top - int(fall_distance * (i / num_sways))` (exact-arithmetic truncating
division) and column equal to the clamp of the running column, which is
obtained from the previous running column by adding a lateral offset whose
magnitude is the drawn `sway_amount` (1 to 3 by `randint(1, 3)`) and whose
sign alternates with the parity of i: negative for odd i, positive for
even i. -/
theorem sway_waypoint_formula :
    ∀ (top left right fallDistance : Int) (numSways : Nat) (amount : Nat → Nat)
      (startCol : Int) (i : Nat), 1 ≤ i → i ≤ numSways - 1 →
      (swayWaypoints top left right fallDistance numSways amount startCol)[i - 1]? =
        some ⟨clampCol left right (swayColumnAcc startCol amount i),
              top - Int.tdiv (fallDistance * (i : Int)) (numSways : Int)⟩
      ∧ swayColumnAcc startCol amount i
          = swayColumnAcc startCol amount (i - 1)
            + (if i % 2 = 0 then (amount i : Int) else -(amount i : Int))
      ∧ (1 ≤ amount i → amount i ≤ 3 →
          1 ≤ |swayColumnAcc startCol amount i - swayColumnAcc startCol amount (i - 1)|
          ∧ |swayColumnAcc startCol amount i - swayColumnAcc startCol amount (i - 1)| ≤ 3) := by
  intro top left right fallDistance numSways amount startCol i h1 hn
  obtain ⟨k, rfl⟩ : ∃ k, i = k + 1 := ⟨i - 1, by omega⟩
  have hstep : swayColumnAcc startCol amount (k + 1)
      = swayColumnAcc startCol amount k
        + (if (k + 1) % 2 = 0 then (amount (k + 1) : Int) else -(amount (k + 1) : Int)) := by
    simp only [swayColumnAcc]
    unfold swaySign
    split <;> ring
  refine ⟨?_, by simpa using hstep, ?_⟩
  · simp only [swayWaypoints]
    rw [List.getElem?_map, List.getElem?_range' 1 1 (show k + 1 - 1 < numSways - 1 by omega)]
    have hk : 1 + 1 * (k + 1 - 1) = k + 1 := by omega
    rw [hk]
    rfl
  · intro ha1 ha3
    have hd : swayColumnAcc startCol amount (k + 1) - swayColumnAcc startCol amount (k + 1 - 1)
        = (if (k + 1) % 2 = 0 then (amount (k + 1) : Int) else -(amount (k + 1) : Int)) := by
      simp only [Nat.add_sub_cancel] at hstep ⊢
      omega
    rw [hd]
    have hc1 : (1 : Int) ≤ (amount (k + 1) : Int) := by exact_mod_cast ha1
    have hc3 : (amount (k + 1) : Int) ≤ 3 := by exact_mod_cast ha3
    split
    · rw [abs_of_nonneg (by omega)]
      exact ⟨hc1, hc3⟩
    · rw [abs_neg, abs_of_nonneg (by omega)]
      exact ⟨hc1, hc3⟩

theorem sway_waypoint_formula_witness :
    (swayWaypoints 20 0 10 19 3 (fun _ => 2) 5)[2 - 1]? =
      some ⟨clampCol 0 10 (swayColumnAcc 5 (fun _ => 2) 2),
            20 - Int.tdiv (19 * (2 : Int)) ((3 : Nat) : Int)⟩
    ∧ swayColumnAcc 5 (fun _ => 2) 2
        = swayColumnAcc 5 (fun _ => 2) (2 - 1)
          + (if 2 % 2 = 0 then ((fun _ => 2) 2 : Int) else -((fun _ => 2) 2 : Int))
    ∧ (1 ≤ (fun _ => 2 : Nat → Nat) 2 → (fun _ => 2 : Nat → Nat) 2 ≤ 3 →
        1 ≤ |swayColumnAcc 5 (fun _ => 2) 2 - swayColumnAcc 5 (fun _ => 2) (2 - 1)|
        ∧ |swayColumnAcc 5 (fun _ => 2) 2 - swayColumnAcc 5 (fun _ => 2) (2 - 1)| ≤ 3) :=
  sway_waypoint_formula 20 0 10 19 3 (fun _ => 2) 5 2 (by decide) (by decide)

/-- `random.choice` modelled by an oracle index: the chosen element of a
non-empty list is a member of it. -/
theorem getD_mod_mem (l : List String) (d : String) (i : Nat) (h : l ≠ []) :
    l.getD (i % l.length) d ∈ l := by
  have h2 : i % l.length < l.length := Nat.mod_lt _ (List.length_pos.mpr h)
  rw [List.getD_eq_getElem l d h2]
  exact List.getElem_mem _

/-- C10: In MoreSnow, the falling symbol of a text-forming character is
drawn from the configured snow symbols with `"."` excluded; the full
configured set is used as a fallback only when excluding `"."` leaves no
symbols. Background snowflakes are drawn from the full set, so they are not
subject to the exclusion (when `"."` is configured, some draw yields it). -/
theorem text_symbol_excludes_dot :
    ∀ (snowSymbols : List String) (i j : Nat),
      (snowSymbols.filter (fun s => s ≠ ".") ≠ [] →
        textSnowSymbol snowSymbols i j ∈ snowSymbols.filter (fun s => s ≠ ".")
        ∧ textSnowSymbol snowSymbols i j ≠ "."
        ∧ textSnowSymbol snowSymbols i j ∈ snowSymbols)
      ∧ (snowSymbols.filter (fun s => s ≠ ".") = [] → snowSymbols ≠ [] →
        textSnowSymbol snowSymbols i j ∈ snowSymbols)
      ∧ (snowSymbols ≠ [] → bgSnowSymbol snowSymbols i ∈ snowSymbols)
      ∧ ("." ∈ snowSymbols → ∃ k, bgSnowSymbol snowSymbols k = ".") := by
  intro snowSymbols i j
  refine ⟨?_, ?_, ?_, ?_⟩
  · intro hne
    have hie : (snowSymbols.filter (fun s => s ≠ ".")).isEmpty = false := by
      simpa [List.isEmpty_iff] using hne
    have hmem : textSnowSymbol snowSymbols i j ∈ snowSymbols.filter (fun s => s ≠ ".") := by
      rw [textSnowSymbol]
      simp only [hie, Bool.false_eq_true, if_false]
      exact getD_mod_mem _ "." i hne
    have hmem2 := List.mem_filter.mp hmem
    refine ⟨hmem, ?_, hmem2.1⟩
    simpa using hmem2.2
  · intro he hne
    have hie : (snowSymbols.filter (fun s => s ≠ ".")).isEmpty = true := by
      rw [List.isEmpty_iff]
      exact he
    rw [textSnowSymbol]
    simp only [hie, if_true]
    exact getD_mod_mem _ "." j hne
  · intro hne
    exact getD_mod_mem _ "." i hne
  · intro hdot
    obtain ⟨n, hn, hval⟩ := List.getElem_of_mem hdot
    refine ⟨n, ?_⟩
    rw [bgSnowSymbol, Nat.mod_eq_of_lt hn, List.getD_eq_getElem _ _ hn, hval]

theorem text_symbol_excludes_dot_witness :
    (textSnowSymbol [".", "."] 0 0 ∈ ([".", "."] : List String))
    ∧ textSnowSymbol ["*", ".", "o", "+"] 1 0 ≠ "."
    ∧ bgSnowSymbol ["*", ".", "o", "+"] 0 ∈ (["*", ".", "o", "+"] : List String)
    ∧ ∃ k, bgSnowSymbol ["*", ".", "o", "+"] k = "." :=
  ⟨(text_symbol_excludes_dot [".", "."] 0 0).2.1 (by decide) (by decide),
   ((text_symbol_excludes_dot ["*", ".", "o", "+"] 1 0).1 (by decide)).2.1,
   (text_symbol_excludes_dot ["*", ".", "o", "+"] 0 0).2.2.1 (by decide),
   (text_symbol_excludes_dot ["*", ".", "o", "+"] 0 0).2.2.2 (by decide)⟩

/-- Once set, `spawn_stopped` survives a full `ChristmasIterator.__next__`. -/
theorem xmasTick_spawnStopped_persist (cv : Canvas) (r : XmasRand) (s : XmasState)
    (h : s.spawnStopped = true) :
    (xmasTick cv r s).1.spawnStopped = true := by
  have h5 : (xmasAccelStep (xmasRevealStep (xmasLightsStep (xmasBuildStep r s)))).spawnStopped
      = true := by
    rw [(xmasAccelStep_spec _).2.2.1, (xmasRevealStep_spec _).2.2.1,
      (xmasLightsStep_spec _).2.2.1, (xmasBuildStep_spec r s).2.2.1]
    exact h
  have h6 := (xmasSpawnStep_spec cv r _).2.2.2.2.1 h5
  simp only [xmasTick, xmasLandingStep]
  split
  · exact h6
  · show (xmasEngineStep r _).spawnStopped = true
    rw [(xmasEngineStep_spec r _).2.2.2.2.2.2.1]
    exact h6

/-- C7: In the terminal spawn-stopped phase (which, once entered, persists
across every subsequent tick), every background particle whose path has
completed is unconditionally removed by the landing check — made invisible
and dropped from the background set with its coordinates untouched —
regardless of the pile height at its column, and the pile map is not
modified. -/
theorem spawn_stopped_landing_discard :
    (∀ (bottom : Int) (l : List Particle) (pile : Int → Nat),
      (xmasLandingPass true bottom l pile).1 = l.filter (fun p => p.pathActive)
      ∧ (xmasLandingPass true bottom l pile).2.1 = pile
      ∧ (xmasLandingPass true bottom l pile).2.2 =
          (l.filter (fun p => !p.pathActive)).map (fun p => { p with visible := false }))
    ∧ (∀ (cv : Canvas) (r : XmasRand) (s : XmasState),
        s.spawnStopped = true → (xmasTick cv r s).1.spawnStopped = true) :=
  ⟨fun bottom l pile => xmasLandingPass_spawnStopped bottom l pile,
   xmasTick_spawnStopped_persist⟩

theorem spawn_stopped_landing_discard_witness :
    (xmasTick testCanvas xmasTestRand xmasStoppedTestState).1.spawnStopped = true :=
  spawn_stopped_landing_discard.2 testCanvas xmasTestRand xmasStoppedTestState rfl

/-- The engine update does not change whether the background set is empty. -/
theorem xmasEngineStep_bg_isEmpty (r : XmasRand) (s : XmasState) :
    (xmasEngineStep r s).backgroundSnow.isEmpty = s.backgroundSnow.isEmpty := by
  simp only [xmasEngineStep]
  rw [Bool.eq_iff_iff, List.isEmpty_iff, List.isEmpty_iff]
  simp

/-- The Christmas iterator signals end-of-sequence exactly when, at the end
of the tick, spawning has stopped and the background set is empty. -/
theorem xmasTick_stop_iff (cv : Canvas) (r : XmasRand) (s : XmasState) :
    (xmasTick cv r s).2
      = ((xmasTick cv r s).1.spawnStopped && (xmasTick cv r s).1.backgroundSnow.isEmpty) := by
  simp only [xmasTick]
  split
  case isTrue h => exact h.symm
  case isFalse h =>
    rw [(xmasEngineStep_spec r _).2.2.2.2.2.2.1, xmasEngineStep_bg_isEmpty]
    exact (Bool.not_eq_true _ |>.mp h).symm

/-- The fade block of the Christmas spawn step: while spawning is live and
the tree is complete, the hold counter increments by exactly one per tick and
spawning stops exactly when it exceeds 600. -/
theorem xmasSpawnStep_fade (cv : Canvas) (r : XmasRand) (s : XmasState)
    (hss : s.spawnStopped = false) (htc : s.textComplete = true) :
    (xmasSpawnStep cv r s).fadeoutCounter = s.fadeoutCounter + 1
    ∧ ((xmasSpawnStep cv r s).spawnStopped = true ↔ 600 < s.fadeoutCounter + 1) := by
  by_cases h3 : 600 < s.fadeoutCounter + 1
  · constructor <;> simp [xmasSpawnStep, hss, htc, h3]
  · by_cases h4 : s.backgroundSpawnDelay ≤ 0
    · by_cases h5 : r.spawnRoll < 15 / 100
      · constructor <;> simp [xmasSpawnStep, xmasSpawnOne, hss, htc, h3, h4, h5]
      · constructor <;> simp [xmasSpawnStep, hss, htc, h3, h4, h5]
    · constructor <;> simp [xmasSpawnStep, hss, htc, h3, h4]

/-- Tick-level fade behaviour of `ChristmasIterator.__next__`. -/
theorem xmasTick_fade (cv : Canvas) (r : XmasRand) (s : XmasState)
    (hss : s.spawnStopped = false) (htc : s.textComplete = true) :
    (xmasTick cv r s).1.fadeoutCounter = s.fadeoutCounter + 1
    ∧ ((xmasTick cv r s).1.spawnStopped = true ↔ 600 < s.fadeoutCounter + 1) := by
  have hss4 : (xmasAccelStep (xmasRevealStep (xmasLightsStep (xmasBuildStep r s)))).spawnStopped
      = false := by
    rw [(xmasAccelStep_spec _).2.2.1, (xmasRevealStep_spec _).2.2.1,
      (xmasLightsStep_spec _).2.2.1, (xmasBuildStep_spec r s).2.2.1]
    exact hss
  have htc4 : (xmasAccelStep (xmasRevealStep (xmasLightsStep (xmasBuildStep r s)))).textComplete
      = true := by
    rw [(xmasAccelStep_spec _).2.2.2.2.2.2.1, (xmasRevealStep_spec _).2.2.2.2.2.2.1,
      (xmasLightsStep_spec _).2.2.2.2.2.2.1]
    exact (xmasBuildStep_spec r s).2.2.2.2.2.2 htc
  have hfc4 : (xmasAccelStep (xmasRevealStep (xmasLightsStep (xmasBuildStep r s)))).fadeoutCounter
      = s.fadeoutCounter := by
    rw [(xmasAccelStep_spec _).2.2.2.1, (xmasRevealStep_spec _).2.2.2.1,
      (xmasLightsStep_spec _).2.2.2.1, (xmasBuildStep_spec r s).2.2.2.1]
  have hmain := xmasSpawnStep_fade cv r _ hss4 htc4
  rw [hfc4] at hmain
  simp only [xmasTick]
  split
  · exact hmain
  · show (xmasEngineStep r _).fadeoutCounter = _ ∧ ((xmasEngineStep r _).spawnStopped = true ↔ _)
    rw [(xmasEngineStep_spec r _).2.2.2.2.2.1, (xmasEngineStep_spec r _).2.2.2.2.2.2.1]
    exact hmain

/-- One fade-phase tick from the post-reveal state: the counter increments,
nothing spawns, and no end-of-sequence is signalled while the counter stays
at or below 600. -/
theorem xmasFadeTick (cv : Canvas) (k : Nat) (d : Int) (hk : k + 1 ≤ 600) :
    xmasTick cv xmasNoSpawnRand
        { xmasFadeInit with fadeoutCounter := k, backgroundSpawnDelay := d }
      = ({ xmasFadeInit with
            fadeoutCounter := k + 1,
            backgroundSpawnDelay := if d ≤ 0 then 3 else d - 1 }, false) := by
  have h600 : ¬(600 < k + 1) := by omega
  have hroll : ¬((1 : ℚ) < 15 / 100) := by norm_num
  by_cases hd : d ≤ 0
  · simp [xmasTick, xmasBuildStep, xmasLightsStep, xmasRevealStep, xmasAccelStep,
      xmasSpawnStep, xmasLandingStep, xmasEngineStep, xmasLandingPass,
      xmasFadeInit, xmasNoSpawnRand, h600, hroll, hd]
  · simp [xmasTick, xmasBuildStep, xmasLightsStep, xmasRevealStep, xmasAccelStep,
      xmasSpawnStep, xmasLandingStep, xmasEngineStep, xmasLandingPass,
      xmasFadeInit, xmasNoSpawnRand, h600, hroll, hd]

/-- The 601st fade-phase tick: the counter exceeds 600, spawning stops, and
with no background snow left the iterator signals end-of-sequence. -/
theorem xmasFadeStopTick (cv : Canvas) (d : Int) :
    xmasTick cv xmasNoSpawnRand
        { xmasFadeInit with fadeoutCounter := 600, backgroundSpawnDelay := d }
      = ({ xmasFadeInit with
            fadeoutCounter := 601,
            spawnStopped := true,
            backgroundSpawnDelay := d }, true) := by
  simp [xmasTick, xmasBuildStep, xmasLightsStep, xmasRevealStep, xmasAccelStep,
    xmasSpawnStep, xmasLandingStep, xmasEngineStep, xmasLandingPass,
    xmasFadeInit, xmasNoSpawnRand]

/-- Running the fade phase for `k ≤ 600` ticks: the counter equals `k`,
spawning has not stopped, and no end-of-sequence has been signalled. -/
theorem xmasFadeRun (cv : Canvas) :
    ∀ k : Nat, k ≤ 600 →
      ∃ d : Int, xmasRunN cv xmasNoSpawnRand k (xmasFadeInit, false)
        = ({ xmasFadeInit with fadeoutCounter := k, backgroundSpawnDelay := d }, false) := by
  intro k
  induction k with
  | zero =>
    intro _
    exact ⟨0, rfl⟩
  | succ k ih =>
    intro hk
    obtain ⟨d, hd⟩ := ih (by omega)
    refine ⟨if d ≤ 0 then 3 else d - 1, ?_⟩
    show (let u := xmasRunN cv xmasNoSpawnRand k (xmasFadeInit, false)
          if u.2 then u else xmasTick cv xmasNoSpawnRand u.1) = _
    rw [hd]
    simp only [if_false, Bool.false_eq_true]
    exact xmasFadeTick cv k d hk

/-- C4: The Christmas iterator signals end-of-sequence on a tick if and only
if spawning has stopped and the background set is empty at the end of that
tick; while spawning is live and the tree is complete, the fade/hold counter
increments exactly once per tick and spawning stops exactly on the tick
where it exceeds 600. In particular, starting the fade phase with zero
background particles, no end-of-sequence is signalled during ticks 1 to 600,
and it is signalled on tick 601. -/
theorem christmas_termination :
    (∀ (cv : Canvas) (r : XmasRand) (s : XmasState),
      (xmasTick cv r s).2
        = ((xmasTick cv r s).1.spawnStopped && (xmasTick cv r s).1.backgroundSnow.isEmpty))
    ∧ (∀ (cv : Canvas) (r : XmasRand) (s : XmasState),
      s.spawnStopped = false → s.textComplete = true →
        (xmasTick cv r s).1.fadeoutCounter = s.fadeoutCounter + 1
        ∧ ((xmasTick cv r s).1.spawnStopped = true ↔ 600 < s.fadeoutCounter + 1))
    ∧ (∀ (cv : Canvas) (k : Nat), k ≤ 600 →
      (xmasRunN cv xmasNoSpawnRand k (xmasFadeInit, false)).2 = false)
    ∧ (∀ cv : Canvas,
      (xmasRunN cv xmasNoSpawnRand 601 (xmasFadeInit, false)).2 = true) := by
  refine ⟨xmasTick_stop_iff, xmasTick_fade, ?_, ?_⟩
  · intro cv k hk
    obtain ⟨d, hd⟩ := xmasFadeRun cv k hk
    rw [hd]
  · intro cv
    obtain ⟨d, hd⟩ := xmasFadeRun cv 600 (le_refl _)
    show (let u := xmasRunN cv xmasNoSpawnRand 600 (xmasFadeInit, false)
          if u.2 then u else xmasTick cv xmasNoSpawnRand u.1).2 = true
    rw [hd]
    simp only [if_false, Bool.false_eq_true]
    rw [xmasFadeStopTick cv d]

theorem christmas_termination_witness :
    ((xmasTick testCanvas xmasNoSpawnRand xmasFadeInit).1.fadeoutCounter
        = xmasFadeInit.fadeoutCounter + 1
      ∧ ((xmasTick testCanvas xmasNoSpawnRand xmasFadeInit).1.spawnStopped = true
          ↔ 600 < xmasFadeInit.fadeoutCounter + 1))
    ∧ (xmasRunN testCanvas xmasNoSpawnRand 5 (xmasFadeInit, false)).2 = false
    ∧ (xmasRunN testCanvas xmasNoSpawnRand 601 (xmasFadeInit, false)).2 = true :=
  ⟨christmas_termination.2.1 testCanvas xmasNoSpawnRand xmasFadeInit rfl rfl,
   christmas_termination.2.2.1 testCanvas 5 (by decide),
   christmas_termination.2.2.2 testCanvas⟩

/-- With pending characters left and time not yet up, one
`MoreSnowIterator.__next__` does not stop; it pops exactly one pending
character (resetting the text delay to 1) on a tick whose delay has run out
and only decrements the delay otherwise. -/
theorem msTick_building (cv : Canvas) (r : MSRand) (s : MSState)
    (hp : s.pendingChars ≠ []) (ht : r.timeUp = false) :
    (msTick cv r s).2 = false
    ∧ (s.textSpawnDelay ≤ 0 →
        (msTick cv r s).1.pendingChars.length = s.pendingChars.length - 1
        ∧ (msTick cv r s).1.textSpawnDelay = 1)
    ∧ (0 < s.textSpawnDelay →
        (msTick cv r s).1.pendingChars = s.pendingChars
        ∧ (msTick cv r s).1.textSpawnDelay = s.textSpawnDelay - 1) := by
  have hs2p : (msLandingStep cv (msSpawnStep cv r s)).pendingChars = s.pendingChars := by
    rw [(msLandingStep_spec cv _).1, (msSpawnStep_spec cv r s).1]
  have hs2d : (msLandingStep cv (msSpawnStep cv r s)).textSpawnDelay = s.textSpawnDelay := by
    rw [(msLandingStep_spec cv _).2.1, (msSpawnStep_spec cv r s).2.2.1]
  have hkeyp : (msTick cv r s).1.pendingChars
      = (msDrainStep r (msLandingStep cv (msSpawnStep cv r s))).pendingChars := by
    unfold msTick
    simp only [ht, Bool.false_eq_true, if_false]
    exact (msEngineStep_spec r _).1
  have hkeyd : (msTick cv r s).1.textSpawnDelay
      = (msDrainStep r (msLandingStep cv (msSpawnStep cv r s))).textSpawnDelay := by
    unfold msTick
    simp only [ht, Bool.false_eq_true, if_false]
    exact (msEngineStep_spec r _).2.2.1
  have hkeys : (msTick cv r s).2 = false := by
    unfold msTick
    simp only [ht, Bool.false_eq_true, if_false]
  have hp2 : ¬((msLandingStep cv (msSpawnStep cv r s)).pendingChars = []) := by
    rw [hs2p]; exact hp
  refine ⟨hkeys, ?_, ?_⟩
  · intro hd
    have hd2 : (msLandingStep cv (msSpawnStep cv r s)).textSpawnDelay ≤ 0 := by
      rw [hs2d]; exact hd
    constructor
    · rw [hkeyp]
      simp only [msDrainStep, hp2, hd2, if_true, if_false]
      rw [hs2p, List.length_eraseIdx_of_lt (Nat.mod_lt _ (List.length_pos.mpr hp))]
    · rw [hkeyd]
      simp only [msDrainStep, hp2, hd2, if_true, if_false]
  · intro hd
    have hd2 : ¬((msLandingStep cv (msSpawnStep cv r s)).textSpawnDelay ≤ 0) := by
      rw [hs2d]; omega
    constructor
    · rw [hkeyp]
      simp only [msDrainStep, hp2, hd2, if_true, if_false]
      exact hs2p
    · rw [hkeyd]
      simp only [msDrainStep, hp2, hd2, if_true, if_false]
      rw [hs2d]

/-- An empty MoreSnow pending queue stays empty across a tick. -/
theorem msTick_pending_empty (cv : Canvas) (r : MSRand) (s : MSState)
    (h : s.pendingChars = []) :
    (msTick cv r s).1.pendingChars = [] := by
  have hs2p : (msLandingStep cv (msSpawnStep cv r s)).pendingChars = [] := by
    rw [(msLandingStep_spec cv _).1, (msSpawnStep_spec cv r s).1]; exact h
  have hdrain : (msDrainStep r (msLandingStep cv (msSpawnStep cv r s))).pendingChars = [] := by
    simp only [msDrainStep, hs2p, if_true]
  unfold msTick
  split
  · exact hdrain
  · rw [(msEngineStep_spec r _).1]
    exact hdrain

/-- An empty MoreSnow pending queue stays empty along a whole run. -/
theorem msRunList_pending_empty (cv : Canvas) :
    ∀ (rs : List MSRand) (t : MSState × Bool), t.1.pendingChars = [] →
      (msRunList cv rs t).1.pendingChars = [] := by
  intro rs
  induction rs with
  | nil => intro t h; exact h
  | cons r rs ih =>
    intro t h
    simp only [msRunList]
    by_cases ht : t.2 = true
    · simp only [ht, if_true]
      exact ih t h
    · simp only [ht, if_false]
      exact ih _ (msTick_pending_empty cv r t.1 h)

/-- MoreSnow drains its pending queue in finitely many ticks: from any state
with text delay at most 1 (as reachable states have), after
`2 * queue length + delay` non-terminating ticks the queue is empty. -/
theorem msRunList_drains (cv : Canvas) :
    ∀ (rs : List MSRand) (s : MSState),
      s.textSpawnDelay ≤ 1 → (∀ r ∈ rs, r.timeUp = false) →
      2 * s.pendingChars.length + min s.textSpawnDelay.toNat 1 ≤ rs.length →
      (msRunList cv rs (s, false)).1.pendingChars = [] := by
  intro rs
  induction rs with
  | nil =>
    intro s hdel htime hlen
    simp only [msRunList]
    have hz : s.pendingChars.length = 0 := by
      simp only [List.length_nil] at hlen
      omega
    exact List.length_eq_zero.mp hz
  | cons r rs ih =>
    intro s hdel htime hlen
    by_cases hp : s.pendingChars = []
    · exact msRunList_pending_empty cv (r :: rs) (s, false) hp
    · have ht : r.timeUp = false := htime r (List.mem_cons_self r rs)
      have hbt := msTick_building cv r s hp ht
      have hlpos : 0 < s.pendingChars.length := List.length_pos.mpr hp
      simp only [msRunList, Bool.false_eq_true, if_false]
      have hts : msTick cv r s = ((msTick cv r s).1, false) := by
        rw [← hbt.1]
      rw [hts]
      simp only [List.length_cons] at hlen
      by_cases hd : s.textSpawnDelay ≤ 0
      · have h1 := hbt.2.1 hd
        apply ih
        · rw [h1.2]
        · intro q hq
          exact htime q (List.mem_cons_of_mem r hq)
        · rw [h1.1, h1.2]
          have h0 : min s.textSpawnDelay.toNat 1 = 0 := by omega
          rw [h0] at hlen
          simp only [Int.toNat_one]
          omega
      · have h1 := hbt.2.2 (by omega)
        apply ih
        · rw [h1.2]
          omega
        · intro q hq
          exact htime q (List.mem_cons_of_mem r hq)
        · rw [h1.1, h1.2]
          have hd1 : s.textSpawnDelay = 1 := by omega
          rw [hd1] at hlen ⊢
          simp only [Int.toNat_one] at hlen ⊢
          omega

/-- The Christmas build block while tree characters are pending: the
completion flag is untouched; when the delay has run out,
`min(randint(1, 2), len)` characters are popped from the front and the delay
resets to 2, otherwise only the delay is decremented. -/
theorem xmasBuildStep_drain (r : XmasRand) (s : XmasState) (hp : s.pendingChars ≠ []) :
    (xmasBuildStep r s).textComplete = s.textComplete
    ∧ (s.textSpawnDelay ≤ 0 →
        (xmasBuildStep r s).pendingChars
          = s.pendingChars.drop (min r.drainCount s.pendingChars.length)
        ∧ (xmasBuildStep r s).textSpawnDelay = 2)
    ∧ (0 < s.textSpawnDelay →
        (xmasBuildStep r s).pendingChars = s.pendingChars
        ∧ (xmasBuildStep r s).textSpawnDelay = s.textSpawnDelay - 1) := by
  by_cases hd : s.textSpawnDelay ≤ 0
  · refine ⟨?_, fun _ => ⟨?_, ?_⟩, fun h0 => absurd hd (by omega)⟩ <;>
      simp [xmasBuildStep, xmasReleaseChars, hp, hd]
  · refine ⟨?_, fun h0 => absurd h0 hd, fun _ => ⟨?_, ?_⟩⟩ <;>
      simp [xmasBuildStep, hp, hd]

/-- The pending queue and text delay after a full Christmas tick are those
produced by the build block. -/
theorem xmasTick_buildfields (cv : Canvas) (r : XmasRand) (s : XmasState) :
    (xmasTick cv r s).1.pendingChars = (xmasBuildStep r s).pendingChars
    ∧ (xmasTick cv r s).1.textSpawnDelay = (xmasBuildStep r s).textSpawnDelay := by
  have hchp : (xmasSpawnStep cv r
      (xmasAccelStep (xmasRevealStep (xmasLightsStep (xmasBuildStep r s))))).pendingChars
      = (xmasBuildStep r s).pendingChars := by
    rw [(xmasSpawnStep_spec cv r _).2.1, (xmasAccelStep_spec _).2.2.2.2.2.2.2.1,
      (xmasRevealStep_spec _).2.2.2.2.2.2.2.1, (xmasLightsStep_spec _).2.2.2.2.2.2.2.1]
  have hchd : (xmasSpawnStep cv r
      (xmasAccelStep (xmasRevealStep (xmasLightsStep (xmasBuildStep r s))))).textSpawnDelay
      = (xmasBuildStep r s).textSpawnDelay := by
    rw [(xmasSpawnStep_spec cv r _).2.2.1, (xmasAccelStep_spec _).2.2.2.2.2.2.2.2,
      (xmasRevealStep_spec _).2.2.2.2.2.2.2.2, (xmasLightsStep_spec _).2.2.2.2.2.2.2.2]
  simp only [xmasTick]
  split
  · exact ⟨hchp, hchd⟩
  · constructor
    · rw [(xmasEngineStep_spec r _).2.1]
      exact hchp
    · rw [(xmasEngineStep_spec r _).2.2.1]
      exact hchd

/-- While the tree is not complete, the Christmas spawn block never stops
spawning. -/
theorem xmasSpawnStep_ss_building (cv : Canvas) (r : XmasRand) (s : XmasState)
    (hss : s.spawnStopped = false) (htc : s.textComplete = false) :
    (xmasSpawnStep cv r s).spawnStopped = false := by
  by_cases h4 : s.backgroundSpawnDelay ≤ 0
  · by_cases h5 : r.spawnRoll < 25 / 100 <;>
      simp [xmasSpawnStep, xmasSpawnOne, hss, htc, h4, h5]
  · simp [xmasSpawnStep, hss, htc, h4]

/-- With tree characters still pending (so the build phase is live), a
Christmas tick neither stops, completes the tree nor stops spawning. -/
theorem xmasTick_building (cv : Canvas) (r : XmasRand) (s : XmasState)
    (hp : s.pendingChars ≠ []) (htc : s.textComplete = false)
    (hss : s.spawnStopped = false) :
    (xmasTick cv r s).2 = false
    ∧ (xmasTick cv r s).1.textComplete = false
    ∧ (xmasTick cv r s).1.spawnStopped = false := by
  have htc4 : (xmasAccelStep (xmasRevealStep (xmasLightsStep (xmasBuildStep r s)))).textComplete
      = false := by
    rw [(xmasAccelStep_spec _).2.2.2.2.2.2.1, (xmasRevealStep_spec _).2.2.2.2.2.2.1,
      (xmasLightsStep_spec _).2.2.2.2.2.2.1, (xmasBuildStep_drain r s hp).1]
    exact htc
  have hss4 : (xmasAccelStep (xmasRevealStep (xmasLightsStep (xmasBuildStep r s)))).spawnStopped
      = false := by
    rw [(xmasAccelStep_spec _).2.2.1, (xmasRevealStep_spec _).2.2.1,
      (xmasLightsStep_spec _).2.2.1, (xmasBuildStep_spec r s).2.2.1]
    exact hss
  have hss6 : (xmasSpawnStep cv r
      (xmasAccelStep (xmasRevealStep (xmasLightsStep (xmasBuildStep r s))))).spawnStopped
      = false := xmasSpawnStep_ss_building cv r _ hss4 htc4
  have htc6 : (xmasSpawnStep cv r
      (xmasAccelStep (xmasRevealStep (xmasLightsStep (xmasBuildStep r s))))).textComplete
      = false := by
    rw [(xmasSpawnStep_spec cv r _).2.2.2.1]
    exact htc4
  simp only [xmasTick]
  split
  case isTrue h =>
    exfalso
    have hb : (xmasSpawnStep cv r
        (xmasAccelStep (xmasRevealStep (xmasLightsStep (xmasBuildStep r s))))).spawnStopped
        = true := (Bool.and_eq_true _ _ |>.mp h).1
    rw [hss6] at hb
    exact Bool.false_ne_true hb
  case isFalse h =>
    refine ⟨rfl, ?_, ?_⟩
    · rw [(xmasEngineStep_spec r _).2.2.2.2.1]
      exact htc6
    · rw [(xmasEngineStep_spec r _).2.2.2.2.2.2.1]
      exact hss6

/-- An empty Christmas pending queue stays empty across the build block. -/
theorem xmasBuildStep_pending_empty (r : XmasRand) (s : XmasState)
    (h : s.pendingChars = []) :
    (xmasBuildStep r s).pendingChars = [] := by
  unfold xmasBuildStep
  repeat' split
  all_goals simp [h]

/-- An empty Christmas pending queue stays empty across a tick. -/
theorem xmasTick_pending_empty (cv : Canvas) (r : XmasRand) (s : XmasState)
    (h : s.pendingChars = []) :
    (xmasTick cv r s).1.pendingChars = [] := by
  rw [(xmasTick_buildfields cv r s).1]
  exact xmasBuildStep_pending_empty r s h

/-- An empty Christmas pending queue stays empty along a whole run. -/
theorem xmasRunList_pending_empty (cv : Canvas) :
    ∀ (rs : List XmasRand) (t : XmasState × Bool), t.1.pendingChars = [] →
      (xmasRunList cv rs t).1.pendingChars = [] := by
  intro rs
  induction rs with
  | nil => intro t h; exact h
  | cons r rs ih =>
    intro t h
    simp only [xmasRunList]
    by_cases ht : t.2 = true
    · simp only [ht, if_true]
      exact ih t h
    · simp only [ht, if_false]
      exact ih _ (xmasTick_pending_empty cv r t.1 h)

/-- Christmas drains its pending tree characters in finitely many ticks:
from any build-phase state with text delay at most 2 (as reachable states
have), after `3 * queue length + delay` ticks the queue is empty. -/
theorem xmasRunList_drains (cv : Canvas) :
    ∀ (rs : List XmasRand) (s : XmasState),
      (s.pendingChars = [] ∨
        (s.textSpawnDelay ≤ 2 ∧ s.textComplete = false ∧ s.spawnStopped = false)) →
      (∀ r ∈ rs, 1 ≤ r.drainCount) →
      3 * s.pendingChars.length + min s.textSpawnDelay.toNat 2 ≤ rs.length →
      (xmasRunList cv rs (s, false)).1.pendingChars = [] := by
  intro rs
  induction rs with
  | nil =>
    intro s hinv hcnt hlen
    simp only [xmasRunList]
    have hz : s.pendingChars.length = 0 := by
      simp only [List.length_nil] at hlen
      omega
    exact List.length_eq_zero.mp hz
  | cons r rs ih =>
    intro s hinv hcnt hlen
    by_cases hp : s.pendingChars = []
    · exact xmasRunList_pending_empty cv (r :: rs) (s, false) hp
    · rcases hinv with hinv | ⟨hdel, htc, hss⟩
      · exact absurd hinv hp
      have hb := xmasTick_building cv r s hp htc hss
      have hbf := xmasTick_buildfields cv r s
      have hbd := xmasBuildStep_drain r s hp
      have hlpos : 0 < s.pendingChars.length := List.length_pos.mpr hp
      have hcnt1 : 1 ≤ r.drainCount := hcnt r (List.mem_cons_self r rs)
      simp only [xmasRunList, Bool.false_eq_true, if_false]
      have hts : xmasTick cv r s = ((xmasTick cv r s).1, false) := by
        rw [← hb.1]
      rw [hts]
      simp only [List.length_cons] at hlen
      by_cases hd : s.textSpawnDelay ≤ 0
      · have h1 := hbd.2.1 hd
        apply ih
        · refine Or.inr ⟨?_, hb.2.1, hb.2.2⟩
          rw [hbf.2, h1.2]
        · intro q hq
          exact hcnt q (List.mem_cons_of_mem r hq)
        · rw [hbf.1, h1.1, hbf.2, h1.2, List.length_drop]
          omega
      · have h1 := hbd.2.2 (by omega)
        apply ih
        · refine Or.inr ⟨?_, hb.2.1, hb.2.2⟩
          rw [hbf.2, h1.2]
          omega
        · intro q hq
          exact hcnt q (List.mem_cons_of_mem r hq)
        · rw [hbf.1, h1.1, hbf.2, h1.2]
          omega

/-- The Snow release loop never grows the pending queue. -/
theorem snowRelease_length_le (r : SnowRand) :
    ∀ (k : Nat) (s : SnowState),
      (snowRelease r k s).pendingChars.length ≤ s.pendingChars.length := by
  intro k
  induction k with
  | zero => intro s; exact le_refl _
  | succ k ih =>
    intro s
    unfold snowRelease
    split
    · exact le_refl _
    · exact le_trans (ih _) (List.length_eraseIdx_le _ _)

/-- With at least one release iteration and a non-empty queue, the Snow
release loop strictly shrinks the pending queue. -/
theorem snowRelease_length_lt (r : SnowRand) (k : Nat) (s : SnowState)
    (hk : 1 ≤ k) (hp : s.pendingChars ≠ []) :
    (snowRelease r k s).pendingChars.length < s.pendingChars.length := by
  obtain ⟨j, rfl⟩ : ∃ j, k = j + 1 := ⟨k - 1, by omega⟩
  unfold snowRelease
  simp only [hp, if_false]
  refine lt_of_le_of_lt (snowRelease_length_le r j _) ?_
  show (s.pendingChars.eraseIdx _).length < _
  rw [List.length_eraseIdx_of_lt (Nat.mod_lt _ (List.length_pos.mpr hp))]
  have hpos := List.length_pos.mpr hp
  omega

/-- With a non-empty pending queue, a Snow tick does not stop and strictly
shrinks the queue (at least one character is released per tick). -/
theorem snowTick_building (r : SnowRand) (s : SnowState)
    (hc : 1 ≤ r.releaseCount) (hp : s.pendingChars ≠ []) :
    (snowTick r s).2 = false
    ∧ (snowTick r s).1.pendingChars.length < s.pendingChars.length := by
  unfold snowTick
  have hcond : ¬(s.pendingChars = [] ∧ s.active = ∅) := fun hc2 => hp hc2.1
  simp only [hcond, if_false, hp]
  exact ⟨rfl, snowRelease_length_lt r _ s hc hp⟩

/-- An empty Snow pending queue stays empty across a tick. -/
theorem snowTick_pending_empty (r : SnowRand) (s : SnowState)
    (h : s.pendingChars = []) :
    (snowTick r s).1.pendingChars = [] := by
  unfold snowTick
  split
  · exact h
  · simp only [h, if_true]

/-- An empty Snow pending queue stays empty along a whole run. -/
theorem snowRunList_pending_empty :
    ∀ (rs : List SnowRand) (t : SnowState × Bool), t.1.pendingChars = [] →
      (snowRunList rs t).1.pendingChars = [] := by
  intro rs
  induction rs with
  | nil => intro t h; exact h
  | cons r rs ih =>
    intro t h
    simp only [snowRunList]
    by_cases ht : t.2 = true
    · simp only [ht, if_true]
      exact ih t h
    · simp only [ht, if_false]
      exact ih _ (snowTick_pending_empty r t.1 h)

/-- Snow drains its pending queue within `queue length` ticks. -/
theorem snowRunList_drains :
    ∀ (rs : List SnowRand) (s : SnowState),
      (∀ r ∈ rs, 1 ≤ r.releaseCount) →
      s.pendingChars.length ≤ rs.length →
      (snowRunList rs (s, false)).1.pendingChars = [] := by
  intro rs
  induction rs with
  | nil =>
    intro s _ hlen
    simp only [List.length_nil, Nat.le_zero] at hlen
    exact List.length_eq_zero.mp hlen
  | cons r rs ih =>
    intro s hcnt hlen
    by_cases hp : s.pendingChars = []
    · exact snowRunList_pending_empty (r :: rs) (s, false) hp
    · have hb := snowTick_building r s (hcnt r (List.mem_cons_self r rs)) hp
      simp only [snowRunList, Bool.false_eq_true, if_false]
      have hts : snowTick r s = ((snowTick r s).1, false) := by
        rw [← hb.1]
      rw [hts]
      apply ih
      · intro q hq
        exact hcnt q (List.mem_cons_of_mem r hq)
      · simp only [List.length_cons] at hlen
        omega

/-- Counterexample to C5 as stated: in MoreSnow, tick 2 is a genuine
(non-final) tick on which the pending queue is non-empty and yet its length
does not decrease — the text-spawn delay set to 1 by the pop of tick 1 is
merely decremented. -/
theorem pending_queue_strict_decrease_counterexample :
    (msRunN testCanvas (fun _ => msTestRand) 1 (msTestState, false)).2 = false
    ∧ (msRunN testCanvas (fun _ => msTestRand) 2 (msTestState, false)).2 = false
    ∧ (msRunN testCanvas (fun _ => msTestRand) 1 (msTestState, false)).1.pendingChars ≠ []
    ∧ (msRunN testCanvas (fun _ => msTestRand) 2 (msTestState, false)).1.pendingChars.length
        = (msRunN testCanvas (fun _ => msTestRand) 1 (msTestState, false)).1.pendingChars.length := by
  decide

/-- C5 (amended): In the BUILDING phase, the Snow iterator strictly shrinks
the pending queue on every tick it is non-empty and drains it within
`queue length` ticks. The MoreSnow and Christmas iterators shrink it exactly
on the ticks where the text-spawn delay has run out (popping 1, resp.
`min(randint(1, 2), len)`, and resetting the delay to 1, resp. 2), leave it
unchanged on the delay ticks in between, and still drain it in finitely many
ticks: within `2 * length + delay` (MoreSnow) resp. `3 * length + delay`
(Christmas) non-terminating ticks. -/
theorem pending_queue_drain_progress :
    (∀ (r : SnowRand) (s : SnowState), 1 ≤ r.releaseCount → s.pendingChars ≠ [] →
        (snowTick r s).1.pendingChars.length < s.pendingChars.length)
    ∧ (∀ (rs : List SnowRand) (s : SnowState), (∀ r ∈ rs, 1 ≤ r.releaseCount) →
        s.pendingChars.length ≤ rs.length →
        (snowRunList rs (s, false)).1.pendingChars = [])
    ∧ (∀ (cv : Canvas) (r : MSRand) (s : MSState), s.pendingChars ≠ [] → r.timeUp = false →
        (s.textSpawnDelay ≤ 0 →
          (msTick cv r s).1.pendingChars.length = s.pendingChars.length - 1
          ∧ (msTick cv r s).1.textSpawnDelay = 1)
        ∧ (0 < s.textSpawnDelay →
          (msTick cv r s).1.pendingChars = s.pendingChars
          ∧ (msTick cv r s).1.textSpawnDelay = s.textSpawnDelay - 1))
    ∧ (∀ (cv : Canvas) (rs : List MSRand) (s : MSState),
        s.textSpawnDelay ≤ 1 → (∀ r ∈ rs, r.timeUp = false) →
        2 * s.pendingChars.length + min s.textSpawnDelay.toNat 1 ≤ rs.length →
        (msRunList cv rs (s, false)).1.pendingChars = [])
    ∧ (∀ (cv : Canvas) (r : XmasRand) (s : XmasState), s.pendingChars ≠ [] →
        (s.textSpawnDelay ≤ 0 →
          (xmasTick cv r s).1.pendingChars
            = s.pendingChars.drop (min r.drainCount s.pendingChars.length)
          ∧ (xmasTick cv r s).1.textSpawnDelay = 2)
        ∧ (0 < s.textSpawnDelay →
          (xmasTick cv r s).1.pendingChars = s.pendingChars
          ∧ (xmasTick cv r s).1.textSpawnDelay = s.textSpawnDelay - 1))
    ∧ (∀ (cv : Canvas) (rs : List XmasRand) (s : XmasState),
        (s.pendingChars = [] ∨
          (s.textSpawnDelay ≤ 2 ∧ s.textComplete = false ∧ s.spawnStopped = false)) →
        (∀ r ∈ rs, 1 ≤ r.drainCount) →
        3 * s.pendingChars.length + min s.textSpawnDelay.toNat 2 ≤ rs.length →
        (xmasRunList cv rs (s, false)).1.pendingChars = []) := by
  refine ⟨fun r s hc hp => (snowTick_building r s hc hp).2, snowRunList_drains, ?_,
    msRunList_drains, ?_, xmasRunList_drains⟩
  · intro cv r s hp ht
    exact (msTick_building cv r s hp ht).2
  · intro cv r s hp
    have hbf := xmasTick_buildfields cv r s
    have hbd := xmasBuildStep_drain r s hp
    constructor
    · intro hd
      exact ⟨by rw [hbf.1, (hbd.2.1 hd).1], by rw [hbf.2, (hbd.2.1 hd).2]⟩
    · intro hd
      exact ⟨by rw [hbf.1, (hbd.2.2 hd).1], by rw [hbf.2, (hbd.2.2 hd).2]⟩

theorem pending_queue_drain_progress_witness :
    (snowTick snowTestRand snowTestState).1.pendingChars.length
        < snowTestState.pendingChars.length
    ∧ (snowRunList [snowTestRand, snowTestRand] (snowTestState, false)).1.pendingChars = []
    ∧ ((msTick testCanvas msTestRand msTestState).1.pendingChars.length
          = msTestState.pendingChars.length - 1
        ∧ (msTick testCanvas msTestRand msTestState).1.textSpawnDelay = 1)
    ∧ (msRunList testCanvas [msTestRand, msTestRand, msTestRand, msTestRand]
        (msTestState, false)).1.pendingChars = []
    ∧ ((xmasTick testCanvas xmasTestRand xmasTestState).1.pendingChars
          = xmasTestState.pendingChars.drop
              (min xmasTestRand.drainCount xmasTestState.pendingChars.length)
        ∧ (xmasTick testCanvas xmasTestRand xmasTestState).1.textSpawnDelay = 2)
    ∧ (xmasRunList testCanvas (List.replicate 6 xmasTestRand)
        (xmasTestState, false)).1.pendingChars = [] :=
  ⟨pending_queue_drain_progress.1 snowTestRand snowTestState (by decide) (by decide),
   pending_queue_drain_progress.2.1 [snowTestRand, snowTestRand] snowTestState
     (by decide) (by decide),
   (pending_queue_drain_progress.2.2.1 testCanvas msTestRand msTestState
     (by decide) (by decide)).1 (by decide),
   pending_queue_drain_progress.2.2.2.1 testCanvas
     [msTestRand, msTestRand, msTestRand, msTestRand] msTestState
     (by decide) (by decide) (by decide),
   (pending_queue_drain_progress.2.2.2.2.1 testCanvas xmasTestRand xmasTestState
     (by decide)).1 (by decide),
   pending_queue_drain_progress.2.2.2.2.2 testCanvas (List.replicate 6 xmasTestRand)
     xmasTestState (by decide) (by decide) (by decide)⟩

/-- Each spawned flake bumps the id counter by one, so the spawn fold bumps
it by the batch size; the background list grows by the same amount. -/
theorem msSpawnFold_count (top : Int) (cols : Nat → Int) :
    ∀ (ks : List Nat) (s : MSState),
      (ks.foldl (fun t k => msSpawnOne top (cols k) t) s).nextId = s.nextId + ks.length
      ∧ (ks.foldl (fun t k => msSpawnOne top (cols k) t) s).backgroundSnow.length
          = s.backgroundSnow.length + ks.length := by
  intro ks
  induction ks with
  | nil => intro s; simp
  | cons k ks ih =>
    intro s
    rw [List.foldl_cons]
    have h := ih (msSpawnOne top (cols k) s)
    constructor
    · rw [h.1]
      simp only [msSpawnOne, List.length_cons]
      omega
    · rw [h.2]
      simp only [msSpawnOne, List.length_append, List.length_cons]
      simp
      omega

/-- The MoreSnow text-drain block does not touch the id counter. -/
theorem msDrainStep_nextId (r : MSRand) (s : MSState) :
    (msDrainStep r s).nextId = s.nextId := by
  unfold msDrainStep
  repeat' split
  all_goals rfl

/-- The count-based MoreSnow spawn block: when the delay timer has run out
it unconditionally spawns a batch of `spawnCount` flakes (id counter and
background list grow by the batch size) and resets the timer to 2;
otherwise it only decrements the timer. -/
theorem msSpawnStep_sched (cv : Canvas) (r : MSRand) (s : MSState) :
    (s.backgroundSpawnDelay ≤ 0 →
      (msSpawnStep cv r s).nextId = s.nextId + r.spawnCount
      ∧ (msSpawnStep cv r s).backgroundSnow.length
          = s.backgroundSnow.length + r.spawnCount
      ∧ (msSpawnStep cv r s).backgroundSpawnDelay = 2)
    ∧ (0 < s.backgroundSpawnDelay →
      (msSpawnStep cv r s).nextId = s.nextId
      ∧ (msSpawnStep cv r s).backgroundSnow.length = s.backgroundSnow.length
      ∧ (msSpawnStep cv r s).backgroundSpawnDelay = s.backgroundSpawnDelay - 1) := by
  constructor
  · intro hd
    have h := msSpawnFold_count cv.top r.spawnCol (List.range r.spawnCount) s
    simp only [List.length_range] at h
    simp only [msSpawnStep, hd, if_true]
    exact ⟨h.1, h.2, trivial⟩
  · intro hd
    have hd2 : ¬(s.backgroundSpawnDelay ≤ 0) := by omega
    simp only [msSpawnStep, hd2, if_false]
    exact ⟨trivial, trivial, trivial⟩

/-- The id counter and the spawn timer after a full non-terminating MoreSnow
tick are those produced by the spawn block. -/
theorem msTick_sched (cv : Canvas) (r : MSRand) (s : MSState) (ht : r.timeUp = false) :
    (msTick cv r s).1.nextId = (msSpawnStep cv r s).nextId
    ∧ (msTick cv r s).1.backgroundSpawnDelay = (msSpawnStep cv r s).backgroundSpawnDelay := by
  unfold msTick
  simp only [ht, Bool.false_eq_true, if_false]
  constructor
  · show (msEngineStep r _).nextId = _
    show (msDrainStep r (msLandingStep cv (msSpawnStep cv r s))).nextId = _
    rw [msDrainStep_nextId, (msLandingStep_spec cv _).2.2.2.2.2]
  · rw [(msEngineStep_spec r _).2.2.2.1, (msDrainStep_spec r _).2.2,
      (msLandingStep_spec cv _).2.2.1]

/-- Counterexample to C6 as stated: with the timer starting at 0, a batch is
spawned on tick 1 (id counter 100 to 103), but no batch occurs on tick 2 or
tick 3 — in particular none 2 ticks after the first batch — and the next
batch only occurs on tick 4: batches recur every 3 ticks, not every 2. -/
theorem spawn_batch_period_counterexample :
    (msRunN testCanvas (fun _ => msTestRand) 1 (msTestState, false)).1.nextId = 103
    ∧ (msRunN testCanvas (fun _ => msTestRand) 2 (msTestState, false)).1.nextId = 103
    ∧ (msRunN testCanvas (fun _ => msTestRand) 3 (msTestState, false)).1.nextId = 103
    ∧ (msRunN testCanvas (fun _ => msTestRand) 4 (msTestState, false)).1.nextId = 106
    ∧ (msRunN testCanvas (fun _ => msTestRand) 4 (msTestState, false)).2 = false := by
  decide

/-- C6 (amended): The count-based MoreSnow scheduler spawns a batch of
`randint(3, 6)` particles unconditionally on every tick whose timer has run
out and resets the timer to 2, which is then decremented on the two
following ticks, so batches recur every 3 ticks (not every 2). Starting from
timer 0, after 3 ticks exactly one spawn batch — of size in [3, 6] — has
occurred, on tick 1, with the timer reset to 2 on that tick, reaching 0
again only after tick 3. -/
theorem spawn_batch_schedule :
    (∀ (cv : Canvas) (r : MSRand) (s : MSState),
      (s.backgroundSpawnDelay ≤ 0 →
        (msSpawnStep cv r s).nextId = s.nextId + r.spawnCount
        ∧ (msSpawnStep cv r s).backgroundSnow.length
            = s.backgroundSnow.length + r.spawnCount
        ∧ (msSpawnStep cv r s).backgroundSpawnDelay = 2)
      ∧ (0 < s.backgroundSpawnDelay →
        (msSpawnStep cv r s).nextId = s.nextId
        ∧ (msSpawnStep cv r s).backgroundSnow.length = s.backgroundSnow.length
        ∧ (msSpawnStep cv r s).backgroundSpawnDelay = s.backgroundSpawnDelay - 1))
    ∧ (∀ (cv : Canvas) (r1 r2 r3 : MSRand) (s : MSState),
      s.backgroundSpawnDelay ≤ 0 →
      3 ≤ r1.spawnCount → r1.spawnCount ≤ 6 →
      r1.timeUp = false → r2.timeUp = false → r3.timeUp = false →
        (msTick cv r1 s).1.nextId = s.nextId + r1.spawnCount
        ∧ s.nextId + 3 ≤ (msTick cv r1 s).1.nextId
        ∧ (msTick cv r1 s).1.nextId ≤ s.nextId + 6
        ∧ (msTick cv r1 s).1.backgroundSpawnDelay = 2
        ∧ (msTick cv r2 (msTick cv r1 s).1).1.nextId = (msTick cv r1 s).1.nextId
        ∧ (msTick cv r2 (msTick cv r1 s).1).1.backgroundSpawnDelay = 1
        ∧ (msTick cv r3 (msTick cv r2 (msTick cv r1 s).1).1).1.nextId
            = (msTick cv r1 s).1.nextId
        ∧ (msTick cv r3 (msTick cv r2 (msTick cv r1 s).1).1).1.backgroundSpawnDelay = 0) := by
  constructor
  · intro cv r s
    exact msSpawnStep_sched cv r s
  · intro cv r1 r2 r3 s hd h3 h6 ht1 ht2 ht3
    have k1 := msTick_sched cv r1 s ht1
    have hs1 := (msSpawnStep_sched cv r1 s).1 hd
    have e1n : (msTick cv r1 s).1.nextId = s.nextId + r1.spawnCount := by
      rw [k1.1, hs1.1]
    have e1d : (msTick cv r1 s).1.backgroundSpawnDelay = 2 := by
      rw [k1.2, hs1.2.2]
    have k2 := msTick_sched cv r2 (msTick cv r1 s).1 ht2
    have hs2 := (msSpawnStep_sched cv r2 (msTick cv r1 s).1).2 (by rw [e1d]; omega)
    have e2n : (msTick cv r2 (msTick cv r1 s).1).1.nextId = (msTick cv r1 s).1.nextId := by
      rw [k2.1, hs2.1]
    have e2d : (msTick cv r2 (msTick cv r1 s).1).1.backgroundSpawnDelay = 1 := by
      rw [k2.2, hs2.2.2, e1d]
      omega
    have k3 := msTick_sched cv r3 (msTick cv r2 (msTick cv r1 s).1).1 ht3
    have hs3 := (msSpawnStep_sched cv r3 (msTick cv r2 (msTick cv r1 s).1).1).2
      (by rw [e2d]; omega)
    refine ⟨e1n, by omega, by omega, e1d, e2n, e2d, ?_, ?_⟩
    · rw [k3.1, hs3.1, e2n]
    · rw [k3.2, hs3.2.2, e2d]
      omega

theorem spawn_batch_schedule_witness :
    ((msSpawnStep testCanvas msTestRand msTestState).nextId = msTestState.nextId + 3
      ∧ (msSpawnStep testCanvas msTestRand msTestState).backgroundSnow.length
          = msTestState.backgroundSnow.length + 3
      ∧ (msSpawnStep testCanvas msTestRand msTestState).backgroundSpawnDelay = 2)
    ∧ ((msTick testCanvas msTestRand msTestState).1.nextId = msTestState.nextId + 3
      ∧ msTestState.nextId + 3 ≤ (msTick testCanvas msTestRand msTestState).1.nextId
      ∧ (msTick testCanvas msTestRand msTestState).1.nextId ≤ msTestState.nextId + 6
      ∧ (msTick testCanvas msTestRand msTestState).1.backgroundSpawnDelay = 2
      ∧ (msTick testCanvas msTestRand (msTick testCanvas msTestRand msTestState).1).1.nextId
          = (msTick testCanvas msTestRand msTestState).1.nextId
      ∧ (msTick testCanvas msTestRand
          (msTick testCanvas msTestRand msTestState).1).1.backgroundSpawnDelay = 1
      ∧ (msTick testCanvas msTestRand (msTick testCanvas msTestRand
          (msTick testCanvas msTestRand msTestState).1).1).1.nextId
          = (msTick testCanvas msTestRand msTestState).1.nextId
      ∧ (msTick testCanvas msTestRand (msTick testCanvas msTestRand
          (msTick testCanvas msTestRand msTestState).1).1).1.backgroundSpawnDelay = 0) :=
  ⟨(spawn_batch_schedule.1 testCanvas msTestRand msTestState).1 (by decide),
   spawn_batch_schedule.2 testCanvas msTestRand msTestRand msTestRand msTestState
     (by decide) (by decide) (by decide) (by decide) (by decide) (by decide)⟩

/-- Spawning one background flake commutes with the MoreSnow text drain:
the two blocks touch disjoint parts of the state (their only common field,
the active set, receives independent insertions). -/
theorem msSpawnOne_drain_comm (top col : Int) (r : MSRand) (s : MSState) :
    msSpawnOne top col (msDrainStep r s) = msDrainStep r (msSpawnOne top col s) := by
  by_cases hp : s.pendingChars = []
  · simp only [msDrainStep, msSpawnOne, hp, if_true]
  · by_cases hd : s.textSpawnDelay ≤ 0
    · simp only [msDrainStep, msSpawnOne, hp, hd, if_true, if_false]
      simp only [MSState.mk.injEq]
      exact ⟨trivial, trivial, trivial, trivial, trivial, trivial,
        Finset.Insert.comm _ _ _, trivial⟩
    · simp only [msDrainStep, msSpawnOne, hp, hd, if_true, if_false]

/-- The whole spawn fold commutes with the MoreSnow text drain. -/
theorem msSpawnFold_drain_comm (top : Int) (cols : Nat → Int) (r : MSRand) :
    ∀ (ks : List Nat) (s : MSState),
      ks.foldl (fun t k => msSpawnOne top (cols k) t) (msDrainStep r s)
        = msDrainStep r (ks.foldl (fun t k => msSpawnOne top (cols k) t) s) := by
  intro ks
  induction ks with
  | nil => intro s; rfl
  | cons k ks ih =>
    intro s
    rw [List.foldl_cons, List.foldl_cons, msSpawnOne_drain_comm, ih]

/-- The MoreSnow text drain ignores the background spawn timer, so it
commutes with updating that timer. -/
theorem msDrainStep_update_bgDelay (r : MSRand) (x : MSState) (v : Int) :
    msDrainStep r { x with backgroundSpawnDelay := v }
      = { msDrainStep r x with backgroundSpawnDelay := v } := by
  by_cases hp : x.pendingChars = []
  · simp only [msDrainStep, hp, if_true]
  · by_cases hd : x.textSpawnDelay ≤ 0
    · simp only [msDrainStep, hp, hd, if_true, if_false]
    · simp only [msDrainStep, hp, hd, if_true, if_false]

/-- The MoreSnow text drain ignores the background set and the pile, so it
commutes with updating them. -/
theorem msDrainStep_update_bgpile (r : MSRand) (x : MSState) (b : List Particle)
    (p : Int → Nat) :
    msDrainStep r { x with backgroundSnow := b, pile := p }
      = { msDrainStep r x with backgroundSnow := b, pile := p } := by
  by_cases hp : x.pendingChars = []
  · simp only [msDrainStep, hp, if_true]
  · by_cases hd : x.textSpawnDelay ≤ 0
    · simp only [msDrainStep, hp, hd, if_true, if_false]
    · simp only [msDrainStep, hp, hd, if_true, if_false]

/-- The MoreSnow background spawn block commutes with the text drain. -/
theorem msSpawnStep_drain_comm (cv : Canvas) (r : MSRand) (s : MSState) :
    msSpawnStep cv r (msDrainStep r s) = msDrainStep r (msSpawnStep cv r s) := by
  have hbd := (msDrainStep_spec r s).2.2
  by_cases hd : s.backgroundSpawnDelay ≤ 0
  · have hd2 : (msDrainStep r s).backgroundSpawnDelay ≤ 0 := by rw [hbd]; exact hd
    have e1 : msSpawnStep cv r (msDrainStep r s)
        = { (List.range r.spawnCount).foldl
              (fun t k => msSpawnOne cv.top (r.spawnCol k) t) (msDrainStep r s) with
            backgroundSpawnDelay := 2 } := by
      rw [msSpawnStep, if_pos hd2]
    have e2 : msSpawnStep cv r s
        = { (List.range r.spawnCount).foldl
              (fun t k => msSpawnOne cv.top (r.spawnCol k) t) s with
            backgroundSpawnDelay := 2 } := by
      rw [msSpawnStep, if_pos hd]
    rw [e1, e2]
    conv_lhs => rw [msSpawnFold_drain_comm]
    conv_rhs => rw [msDrainStep_update_bgDelay]
  · have hd2 : ¬((msDrainStep r s).backgroundSpawnDelay ≤ 0) := by rw [hbd]; exact hd
    have e1 : msSpawnStep cv r (msDrainStep r s)
        = { msDrainStep r s with
            backgroundSpawnDelay := (msDrainStep r s).backgroundSpawnDelay - 1 } := by
      rw [msSpawnStep, if_neg hd2]
    have e2 : msSpawnStep cv r s
        = { s with backgroundSpawnDelay := s.backgroundSpawnDelay - 1 } := by
      rw [msSpawnStep, if_neg hd]
    rw [e1, e2, hbd]
    conv_rhs => rw [msDrainStep_update_bgDelay]

/-- The MoreSnow landing block commutes with the text drain. -/
theorem msLandingStep_drain_comm (cv : Canvas) (r : MSRand) (s : MSState) :
    msLandingStep cv (msDrainStep r s) = msDrainStep r (msLandingStep cv s) := by
  have h1 := (msDrainStep_spec r s).1
  have h2 := (msDrainStep_spec r s).2.1
  show { msDrainStep r s with
      backgroundSnow :=
        (msLandingPass cv.bottom (msDrainStep r s).backgroundSnow (msDrainStep r s).pile).1,
      pile :=
        (msLandingPass cv.bottom (msDrainStep r s).backgroundSnow (msDrainStep r s).pile).2.1 }
    = msDrainStep r (msLandingStep cv s)
  rw [h1, h2, ← msDrainStep_update_bgpile]
  rfl

/-- C9: Within one tick, the queue drain happens (observably) before the
spawn, the spawn before the landing checks, and the landing checks before
the termination evaluation. For `ChristmasIterator.__next__` this is the
literal source order of `xmasTick`; for `MoreSnowIterator.__next__`, whose
source interleaves the same blocks as spawn, landing, drain, termination,
the tick function is extensionally equal to the spec-ordered
`msTickSpecOrder` because the blocks touch disjoint state. In particular a
particle spawned in a tick is never evaluated as landed in that same tick:
every just-spawned particle carries an active path, and the landing passes
keep every active-path particle untouched and never remove it. -/
theorem tick_phase_ordering :
    (∀ (cv : Canvas) (r : MSRand) (s : MSState), msTick cv r s = msTickSpecOrder cv r s)
    ∧ (∀ (cv : Canvas) (r : MSRand) (s : MSState),
        ∃ l : List Particle, (msSpawnStep cv r s).backgroundSnow = s.backgroundSnow ++ l
          ∧ ∀ p ∈ l, p.pathActive = true)
    ∧ (∀ (cv : Canvas) (r : XmasRand) (s : XmasState),
        ∃ l : List Particle, (xmasSpawnStep cv r s).backgroundSnow = s.backgroundSnow ++ l
          ∧ ∀ p ∈ l, p.pathActive = true)
    ∧ (∀ (bottom : Int) (l : List Particle) (pile : Int → Nat) (p : Particle),
        p.pathActive = true → p ∈ l →
          p ∈ (msLandingPass bottom l pile).1 ∧ p ∉ (msLandingPass bottom l pile).2.2)
    ∧ (∀ (ss : Bool) (bottom : Int) (l : List Particle) (pile : Int → Nat) (p : Particle),
        p.pathActive = true → p ∈ l →
          p ∈ (xmasLandingPass ss bottom l pile).1
          ∧ p ∉ (xmasLandingPass ss bottom l pile).2.2) := by
  refine ⟨?_, ?_, ?_, ?_, ?_⟩
  · intro cv r s
    have hsd := msSpawnStep_drain_comm cv r s
    have hld := msLandingStep_drain_comm cv r (msSpawnStep cv r s)
    simp only [msTick, msTickSpecOrder]
    rw [hsd, hld]
  · intro cv r s
    exact (msSpawnStep_spec cv r s).2.2.2.2
  · intro cv r s
    exact (xmasSpawnStep_spec cv r s).2.2.2.2.2
  · intro bottom l pile p ha hp
    refine ⟨msLandingPass_active_mem bottom p ha l pile hp, fun hr => ?_⟩
    have hcontra := msLandingPass_removed_inactive bottom p l pile hr
    rw [ha] at hcontra
    exact Bool.noConfusion hcontra
  · intro ss bottom l pile p ha hp
    refine ⟨xmasLandingPass_active_mem ss bottom p ha l pile hp, fun hr => ?_⟩
    have hcontra := xmasLandingPass_removed_inactive ss bottom p l pile hr
    rw [ha] at hcontra
    exact Bool.noConfusion hcontra

theorem tick_phase_ordering_witness :
    ((⟨9, 4, 20, true, true⟩ : Particle)
        ∈ (msLandingPass 1 [⟨9, 4, 20, true, true⟩] (fun _ => 0)).1
      ∧ (⟨9, 4, 20, true, true⟩ : Particle)
        ∉ (msLandingPass 1 [⟨9, 4, 20, true, true⟩] (fun _ => 0)).2.2)
    ∧ ((⟨9, 4, 20, true, true⟩ : Particle)
        ∈ (xmasLandingPass true 1 [⟨9, 4, 20, true, true⟩] (fun _ => 0)).1
      ∧ (⟨9, 4, 20, true, true⟩ : Particle)
        ∉ (xmasLandingPass true 1 [⟨9, 4, 20, true, true⟩] (fun _ => 0)).2.2) :=
  ⟨tick_phase_ordering.2.2.2.1 1 [⟨9, 4, 20, true, true⟩] (fun _ => 0)
     ⟨9, 4, 20, true, true⟩ rfl (by decide),
   tick_phase_ordering.2.2.2.2 true 1 [⟨9, 4, 20, true, true⟩] (fun _ => 0)
     ⟨9, 4, 20, true, true⟩ rfl (by decide)⟩
